import Mathlib

/-!
Verification development for the 8-bit Forth interpreter in
src/ComputerVMKS.ino.  The interpreter core is shallowly embedded: the
global mutable state of the sketch (the integer stack, the construction
stack defStack, the loop index stack idxStack, the sticky fault register
errorCode, the compiling flag, the dictionary of defined words) becomes
one Lean structure S, and every core C function becomes a Lean function
from S to S (returning its C result on the side).  Pointers into the
heap of wordNode cells are replaced by stable indices: a compiled word
body is a list of nodes, the "next" pointer of a node is position + 1,
and the wa.nodeValue pointer of a control node is an Option Nat index
into the same body.  A defined word body is identified by its index in
an append-only arena (List (Option body)); freeing a body sets its slot
to none, so a DEFINED_WORD node that still carries the old index models
a dangling pointer exactly.  Machine ints are modelled as unbounded Int:
the claims under study never exercise 16-bit wrap-around.  The display,
keyboard and buzzer are outside the core and are not modelled; printing
operations keep their stack effects only.
-/

namespace VMKS

/-- Error codes of the interpreter, from the errorTypes enum of the source. -/
inductive ErrorCode where
  | NO_ERROR
  | STACK_OVERFLOW
  | STACK_UNDERFLOW
  | STACK_ERROR
  | INPUT_ERROR
  | EXPECTED_WORD
  | EXPECTED_QUOTE
  | RECURSIVE_WORD_DEFINITION
  | LONE_THEN
  | OUTSIDE_WORD_DEFINITION
  | UNRECOGNIZED_WORD
  | INVALID_CONSTRUCTION
  | LONE_LOOP
  | DIVISION_BY_ZERO
  | NODE_NULL_IN_IF
deriving DecidableEq, Repr

/-- Word kinds, from the wordType enum of the source (INTEGER is the first
constructor, so that a zero-initialised C array of wordType corresponds to a
constant INTEGER function). -/
inductive wordType where
  | INTEGER
  | DOT
  | PLUS
  | MINUS
  | MULTIPLY
  | DIVIDE
  | PRINT_S
  | COLON
  | SEMICOLON
  | DEFINED_WORD
  | PRINT_STACK
  | IF
  | ELSE
  | THEN
  | EQUAL_TO
  | NOT_EQUAL_TO
  | LESS_THAN
  | MORE_THAN
  | LESS_THAN_ZERO
  | EQUAL_TO_ZERO
  | MORE_THAN_ZERO
  | DO
  | LOOP
  | I
  | CR
  | EMIT
  | DUP
  | MOD
  | SLASH_MOD
  | NEGATE
  | ABS
  | MAX
  | MIN
  | SWAP
  | ROT
  | DROP
  | NIP
  | TUCK
  | OVER
  | ROLL
  | PICK
deriving DecidableEq, Repr

/-- One word node, mirroring class word_t of the source.  The workingArea
union is split by use: intValue for INTEGER literals, nodeValue for the
branch target of a control node (an index into the body of the definition
being compiled) or, for a DEFINED_WORD node, the arena index of the body it
calls.  String literals are not modelled (no claim touches them); a PRINT_S
node simply carries no payload here. -/
structure word_t where
  type : wordType
  intValue : Int := 0
  nodeValue : Option Nat := none
deriving DecidableEq, Repr

instance : Inhabited word_t := ⟨{ type := .INTEGER }⟩

/-- Stack capacities from the defines of the source. -/
def STACK_SIZE : Int := 50

/-- DEF_STACK_SIZE of the source. -/
def DEF_STACK_SIZE : Int := 10

/-- IDX_STACK_SIZE of the source (DEF_STACK_SIZE * 2). -/
def IDX_STACK_SIZE : Int := 20

/-- The whole global state of the sketch.  The three C arrays become
functions from cell index to content (C globals are zero-initialised, hence
the initial state S0 below maps every cell to 0 resp. INTEGER); the tops are
Int exactly as in the source.  bodies is the arena of compiled word bodies
(none marks a freed body) and dict mirrors the definedWordList chain, most
recent first, each entry holding the arena index that stands for the
startNode pointer. -/
structure S where
  errorCode : ErrorCode
  stack : Nat → Int
  top : Int
  defStack : Nat → wordType
  defTop : Int
  idxStack : Nat → Int
  idxTop : Int
  inWordDefinition : Bool
  bodies : List (Option (List word_t))
  dict : List (String × Nat)

/-- Initial state: all globals zero-initialised, no error, no definitions. -/
def S0 : S :=
  { errorCode := .NO_ERROR
    stack := fun _ => 0
    top := 0
    defStack := fun _ => .INTEGER
    defTop := 0
    idxStack := fun _ => 0
    idxTop := 0
    inWordDefinition := false
    bodies := []
    dict := [] }

/-- Plain assignment to the fault register, as every `errorCode = X;`
statement of the source (the source never guards the assignment itself; the
guards are the early returns at the entry of each operation). -/
def setErr (e : ErrorCode) (s : S) : S := { s with errorCode := e }

/-- push of the source: no-op under a pending fault, overflow check, then
write at top and increment. -/
def push (value : Int) (s : S) : S :=
  if s.errorCode ≠ .NO_ERROR then s
  else if s.top ≥ STACK_SIZE then setErr .STACK_OVERFLOW s
  else { s with
          stack := fun k => if k = s.top.toNat then value else s.stack k
          top := s.top + 1 }

/-- discard of the source: drops count cells by moving top; the cell
contents stay in place (scratch semantics). -/
def discard (count : Int) (s : S) : S :=
  if s.errorCode ≠ .NO_ERROR then s
  else if s.top < count then setErr .STACK_UNDERFLOW s
  else { s with top := s.top - count }

/-- peek of the source: offset-addressed read relative to top; returns the
dummy 1 under a pending fault or on a bounds fault. -/
def peek (idx : Int) (s : S) : Int × S :=
  if s.errorCode ≠ .NO_ERROR then (1, s)
  else
    let j := s.top - idx
    if j < 0 then (1, setErr .STACK_UNDERFLOW s)
    else if j ≥ STACK_SIZE then (1, setErr .STACK_OVERFLOW s)
    else (s.stack j.toNat, s)

/-- pop of the source: returns the dummy 1 under a pending fault or on
underflow, otherwise the cell just below top, decrementing top. -/
def pop (s : S) : Int × S :=
  if s.errorCode ≠ .NO_ERROR then (1, s)
  else if s.top ≤ 0 then (1, setErr .STACK_UNDERFLOW s)
  else (s.stack (s.top - 1).toNat, { s with top := s.top - 1 })

/-- poke of the source: offset-addressed write relative to top.  As in the
source there is a lower-bound check only (the upper bound is unchecked, but
every call site stays in range on the fault-free paths the claims use). -/
def poke (idx : Int) (val : Int) (s : S) : S :=
  if s.errorCode ≠ .NO_ERROR then s
  else
    let j := s.top - idx
    if j < 0 then setErr .STACK_ERROR s
    else { s with stack := fun k => if k = j.toNat then val else s.stack k }

/-- defPush of the source. -/
def defPush (value : wordType) (s : S) : S :=
  if s.errorCode ≠ .NO_ERROR then s
  else if s.defTop ≥ DEF_STACK_SIZE then setErr .STACK_OVERFLOW s
  else { s with
          defStack := fun k => if k = s.defTop.toNat then value else s.defStack k
          defTop := s.defTop + 1 }

/-- defDiscard of the source. -/
def defDiscard (s : S) : S :=
  if s.errorCode ≠ .NO_ERROR then s
  else if s.defTop ≤ 0 then setErr .STACK_UNDERFLOW s
  else { s with defTop := s.defTop - 1 }

/-- defPeek of the source.  Note the source compares defTop against
STACK_SIZE (50), not DEF_STACK_SIZE; this is kept.  The dummy result is
INTEGER. -/
def defPeek (s : S) : wordType × S :=
  if s.errorCode ≠ .NO_ERROR then (.INTEGER, s)
  else if s.defTop < 1 ∨ s.defTop ≥ STACK_SIZE then (.INTEGER, setErr .STACK_ERROR s)
  else (s.defStack (s.defTop - 1).toNat, s)

/-- defHas of the source: linear scan of the live part of defStack.  As in
the source it does not consult the fault register. -/
def defHas (t : wordType) (s : S) : Bool :=
  (List.range s.defTop.toNat).any fun i => s.defStack i == t

/-- idxPush of the source. -/
def idxPush (value : Int) (s : S) : S :=
  if s.errorCode ≠ .NO_ERROR then s
  else if s.idxTop ≥ IDX_STACK_SIZE then setErr .STACK_OVERFLOW s
  else { s with
          idxStack := fun k => if k = s.idxTop.toNat then value else s.idxStack k
          idxTop := s.idxTop + 1 }

/-- idxDiscard of the source.  The source body decrements defTop, not
idxTop (the defect flagged in the design notes of the spec); the embedding
reproduces it.  The function is never called from the execution path. -/
def idxDiscard (s : S) : S :=
  if s.errorCode ≠ .NO_ERROR then s
  else if s.idxTop < 2 then setErr .STACK_UNDERFLOW s
  else { s with defTop := s.defTop - 2 }

/-- idxPeek of the source: read with offset from the top of idxStack; dummy
result 0. -/
def idxPeek (off : Int) (s : S) : Int × S :=
  if s.errorCode ≠ .NO_ERROR then (0, s)
  else if s.idxTop - off < 0 then (0, setErr .STACK_ERROR s)
  else (s.idxStack (s.idxTop - off).toNat, s)

/-- idxIncr of the source: increment the counter cell on top of idxStack. -/
def idxIncr (s : S) : S :=
  if s.errorCode ≠ .NO_ERROR then s
  else if s.idxTop ≤ 0 then setErr .STACK_UNDERFLOW s
  else { s with
          idxStack := fun k =>
            if k = (s.idxTop - 1).toNat then s.idxStack k + 1 else s.idxStack k }

/-- 16-bit two's-complement wrap: the value a C int expression takes on the
16-bit AVR target when its mathematical value leaves the int range; the
identity on [-32768, 32767]. -/
def wrap16 (x : Int) : Int := (x + 32768) % 65536 - 32768

/-- divide of the source.  The C body computes (int)floor((float)a / b)
with 16-bit int.  For in-range operands the 24-bit float mantissa makes the
float quotient floor to the exact flooring quotient (the quotient is within
2^-8/|b| of a/b, while a non-integral a/b is at least 1/|b| away from any
integer), so the embedding floors exactly with Int.fdiv; the closing cast
back to the 16-bit int wraps the single reachable out-of-range quotient,
-32768 / -1 = 32768, to -32768 (the two's-complement truncation the target
performs on the out-of-range conversion).  Note the function does not
consult the fault register before assigning DIVISION_BY_ZERO. -/
def divide (a b : Int) (s : S) : Int × S :=
  if b = 0 then (0, setErr .DIVISION_BY_ZERO s)
  else (wrap16 (Int.fdiv a b), s)

/-- mod of the source: a - divide(a, b) * b after its own zero check.  The
16-bit multiply and subtract each wrap, and a chain of wrapping operations
equals the single wrap of the exact value, hence one outer wrap16. -/
def mod (a b : Int) (s : S) : Int × S :=
  if b = 0 then (0, setErr .DIVISION_BY_ZERO s)
  else
    let (d, s1) := divide a b s
    (wrap16 (a - d * b), s1)

/-- slashMod of the source: pushes the remainder, then the quotient. -/
def slashMod (a b : Int) (s : S) : S :=
  if b = 0 then setErr .DIVISION_BY_ZERO s
  else
    let (d, s1) := divide a b s
    push d (push (wrap16 (a - d * b)) s1)

/-- Inner copy loop of roll: k iterations of stack[j-1] = stack[j],
j increasing. -/
def rollLoop (k : Nat) (j : Int) (s : S) : S :=
  match k with
  | 0 => s
  | k + 1 =>
      rollLoop k (j + 1)
        { s with stack := fun m => if m = (j - 1).toNat then s.stack j.toNat else s.stack m }

/-- roll of the source: pop the index; a negative index returns silently
before the fault-register check; otherwise read the value at depth idx+1,
shift the cells above it down by one and store the value on top. -/
def roll (s : S) : S :=
  let (idx, s1) := pop s
  if idx < 0 then s1
  else if s1.errorCode ≠ .NO_ERROR then s1
  else
    let (val, s2) := peek (idx + 1) s1
    if s2.errorCode ≠ .NO_ERROR then s2
    else
      let s3 := rollLoop idx.toNat (s2.top - idx) s2
      { s3 with stack := fun m => if m = (s3.top - 1).toNat then val else s3.stack m }

/-- pick of the source: pop the index; a negative index returns silently
before the fault-register check; otherwise push the value at depth idx+1. -/
def pick (s : S) : S :=
  let (idx, s1) := pop s
  if idx < 0 then s1
  else if s1.errorCode ≠ .NO_ERROR then s1
  else
    let (val, s2) := peek (idx + 1) s1
    if s2.errorCode ≠ .NO_ERROR then s2
    else push val s2

/-!
Stage 1 of execution (execWordStage1 of the source) for the word kinds that
matter inside a definition body: the COLON case is the definition compiler
itself and is modelled separately below; the PRINT_S case only scans the
quoted text (no stack or fault effect on the success path) and is left as a
no-op here since strings are not modelled.
-/

/-- The per-token part of execWordStage1 for a word inside or outside a
definition body: the construction-stack bookkeeping of the cases COLON, IF,
DO, ELSE, THEN, I and LOOP of the source.  Returns the word (with its
nodeValue cleared to NULL where the source does so) together with the new
state.  The backward patching that the COLON loop performs after appending a
LOOP or THEN node is in patchStep below, as in the source. -/
def execWordStage1 (w : word_t) (s : S) : word_t × S :=
  if s.errorCode ≠ .NO_ERROR then (w, s)
  else
    match w.type with
    | .COLON =>
        -- inside a body this always faults; the top-level case is execColon
        (w, if s.inWordDefinition then setErr .RECURSIVE_WORD_DEFINITION s else s)
    | .IF | .DO =>
        if !s.inWordDefinition then (w, setErr .OUTSIDE_WORD_DEFINITION s)
        else ({ w with nodeValue := none }, defPush w.type s)
    | .ELSE | .THEN =>
        if !s.inWordDefinition then (w, setErr .OUTSIDE_WORD_DEFINITION s)
        else
          let (t, s1) := defPeek s
          if t ≠ .IF then
            (w, if s1.errorCode ≠ .NO_ERROR then s1 else setErr .INVALID_CONSTRUCTION s1)
          else
            let s2 := if w.type = .THEN then defDiscard s1 else s1
            ({ w with nodeValue := none }, s2)
    | .I =>
        if !s.inWordDefinition then (w, setErr .OUTSIDE_WORD_DEFINITION s)
        else if !defHas .DO s then (w, setErr .INVALID_CONSTRUCTION s)
        else ({ w with nodeValue := none }, s)
    | .LOOP =>
        if !s.inWordDefinition then (w, setErr .OUTSIDE_WORD_DEFINITION s)
        else
          let (t, s1) := defPeek s
          if t ≠ .DO then
            (w, if s1.errorCode ≠ .NO_ERROR then s1 else setErr .INVALID_CONSTRUCTION s1)
          else ({ w with nodeValue := none }, defDiscard s1)
    | _ => (w, s)

/-- Helper for the backward scans of the COLON loop: walk the nodes compiled
so far front to back (exactly as the while loop over the chain does),
remembering the index of the last node of kind t whose branch target is
still NULL. -/
def lastUndefAux (t : wordType) : List word_t → Nat → Option Nat → Option Nat
  | [], _, acc => acc
  | w :: ws, i, acc =>
      lastUndefAux t ws (i + 1)
        (if w.type = t ∧ w.nodeValue = none then some i else acc)

/-- Index of the nearest (largest-index) unresolved node of kind t among the
nodes compiled so far, the result of the backward scans in the COLON loop. -/
def lastUndef (t : wordType) (ns : List word_t) : Option Nat :=
  lastUndefAux t ns 0 none

/-- The patching the COLON loop performs right after appending a node: for a
LOOP node, link it bidirectionally with the nearest unresolved DO (LONE_LOOP
if none); for a THEN node, point the nearest unresolved IF at the node after
the nearest unresolved ELSE (or at the THEN itself when there is no
unresolved ELSE anywhere), point that ELSE (if any) at the THEN, and point
the THEN back at the IF (LONE_THEN if there is no unresolved IF).  ns is the
list of nodes appended before this one; the new node gets index ns.length.
Returns the new state and the node list with the new node appended. -/
def patchStep (w : word_t) (ns : List word_t) (s : S) : S × List word_t :=
  if w.type = .LOOP then
    match lastUndef .DO ns with
    | none => (setErr .LONE_LOOP s, ns ++ [w])
    | some d =>
        (s, (ns.set d { (ns.getD d default) with nodeValue := some ns.length })
              ++ [{ w with nodeValue := some d }])
  else if w.type = .THEN then
    match lastUndef .IF ns with
    | none => (setErr .LONE_THEN s, ns ++ [w])
    | some i =>
        let eIdx := lastUndef .ELSE ns
        let tgt : Nat := match eIdx with | some e => e + 1 | none => ns.length
        let ns1 := ns.set i { (ns.getD i default) with nodeValue := some tgt }
        let ns2 := match eIdx with
          | some e => ns1.set e { (ns1.getD e default) with nodeValue := some ns.length }
          | none => ns1
        (s, ns2 ++ [{ w with nodeValue := some i }])
  else (s, ns ++ [w])

/-- The body-reading loop of the COLON case of execWordStage1, over a list
of already-parsed words (the tokens of the rest of the input line): append a
node, run its stage-1 bookkeeping, patch, and stop at SEMICOLON.  An
exhausted token list is expectWord failing with EXPECTED_WORD (definitions
must end on the line).  On a fault the partially built chain is dropped by
the caller exactly as deleteDefinition drops it in the source; the node list
returned on a fault path is therefore irrelevant. -/
def compileBody : List word_t → S → List word_t → S × List word_t
  | [], s, ns =>
      if s.errorCode ≠ .NO_ERROR then (s, ns) else (setErr .EXPECTED_WORD s, ns)
  | w :: rest, s, ns =>
      let (w1, s1) := execWordStage1 w s
      if s1.errorCode ≠ .NO_ERROR then (s1, ns)
      else
        let (s2, ns2) := patchStep w1 ns s1
        if s2.errorCode ≠ .NO_ERROR then (s2, ns2)
        else if w1.type = .SEMICOLON then (s2, ns2)
        else compileBody rest s2 ns2

/-!  Parsing (the Resolver): tryParseDefined, tryParseInt, tryParseBuiltIn
and parseWord of the source, over a token that has already been cut out of
the input buffer (the Word Reader is an I/O concern and is abstracted to a
list of token strings). -/

/-- tryParseDefined of the source: walk the dictionary chain, most recent
entry first; on a name match produce a DEFINED_WORD node carrying the
current startNode of that entry (here: its arena index). -/
def tryParseDefined (tok : String) (s : S) : Option word_t :=
  match s.dict.find? (fun p => p.1 == tok) with
  | some p => some { type := .DEFINED_WORD, nodeValue := some p.2 }
  | none => none

/-- tryParseInt of the source: optional leading minus, then decimal digits.
The 16-bit wrap of the C int is not modelled (no claim uses a literal
outside the 16-bit range). -/
def tryParseInt (tok : String) : Option Int :=
  let cs := tok.toList
  let (neg, ds) := match cs with
    | '-' :: r => (true, r)
    | _ => (false, cs)
  if ds.isEmpty then none
  else if ds.all (fun c => c.isDigit) then
    let n : Int := ds.foldl (fun a c => a * 10 + ((c.toNat : Int) - 48)) 0
    some (if neg then -n else n)
  else none

/-- tryParseBuiltIn of the source: the fixed builtin table. -/
def tryParseBuiltIn (tok : String) : Option wordType :=
  if tok = "." then some .DOT
  else if tok = "+" then some .PLUS
  else if tok = "-" then some .MINUS
  else if tok = "*" then some .MULTIPLY
  else if tok = "/" then some .DIVIDE
  else if tok = ".\"" then some .PRINT_S
  else if tok = ":" then some .COLON
  else if tok = ";" then some .SEMICOLON
  else if tok = ".S" then some .PRINT_STACK
  else if tok = "IF" then some .IF
  else if tok = "ELSE" then some .ELSE
  else if tok = "THEN" then some .THEN
  else if tok = "=" then some .EQUAL_TO
  else if tok = ">" then some .MORE_THAN
  else if tok = "<" then some .LESS_THAN
  else if tok = "<>" then some .NOT_EQUAL_TO
  else if tok = "0>" then some .MORE_THAN_ZERO
  else if tok = "0<" then some .LESS_THAN_ZERO
  else if tok = "0=" then some .EQUAL_TO_ZERO
  else if tok = "DO" then some .DO
  else if tok = "LOOP" then some .LOOP
  else if tok = "I" then some .I
  else if tok = "CR" then some .CR
  else if tok = "EMIT" then some .EMIT
  else if tok = "DUP" then some .DUP
  else if tok = "MOD" then some .MOD
  else if tok = "/MOD" then some .SLASH_MOD
  else if tok = "NEGATE" then some .NEGATE
  else if tok = "ABS" then some .ABS
  else if tok = "MAX" then some .MAX
  else if tok = "MIN" then some .MIN
  else if tok = "SWAP" then some .SWAP
  else if tok = "ROT" then some .ROT
  else if tok = "DROP" then some .DROP
  else if tok = "NIP" then some .NIP
  else if tok = "TUCK" then some .TUCK
  else if tok = "OVER" then some .OVER
  else if tok = "ROLL" then some .ROLL
  else if tok = "PICK" then some .PICK
  else none

/-- parseWord of the source: defined words shadow integers shadow builtins;
an unmatched token sets UNRECOGNIZED_WORD (the ??? echo is display only). -/
def parseWord (tok : String) (s : S) : Option word_t × S :=
  match tryParseDefined tok s with
  | some w => (some w, s)
  | none =>
      match tryParseInt tok with
      | some n => (some { type := .INTEGER, intValue := n }, s)
      | none =>
          match tryParseBuiltIn tok with
          | some t => (some { type := t }, s)
          | none => (none, setErr .UNRECOGNIZED_WORD s)

/-- The COLON body loop over raw tokens: parse each token against the
current dictionary, then proceed exactly as compileBody. -/
def compileDefBody : List String → S → List word_t → S × List word_t
  | [], s, ns =>
      if s.errorCode ≠ .NO_ERROR then (s, ns) else (setErr .EXPECTED_WORD s, ns)
  | t :: rest, s, ns =>
      if s.errorCode ≠ .NO_ERROR then (s, ns)
      else
        match parseWord t s with
        | (none, s1) => (s1, ns)
        | (some w, s1) =>
            let (w1, s2) := execWordStage1 w s1
            if s2.errorCode ≠ .NO_ERROR then (s2, ns)
            else
              let (s3, ns2) := patchStep w1 ns s2
              if s3.errorCode ≠ .NO_ERROR then (s3, ns2)
              else if w1.type = .SEMICOLON then (s3, ns2)
              else compileDefBody rest s3 ns2

/-- deleteDefinition of the source: free every node of the body; in the
arena model the whole slot is released at once. -/
def deleteDefinition (bid : Nat) (bodies : List (Option (List word_t))) :
    List (Option (List word_t)) :=
  bodies.set bid none

/-- The COLON case of execWordStage1 at top level: start a definition named
name whose body tokens follow on the line.  On success the body is
published: an existing entry of the same name has its old body freed
(deleteDefinition) and its startNode replaced by the new body; a fresh name
is prepended to the dictionary chain.  On any fault the partial body is
dropped and the dictionary is untouched.  In both cases the compiling flag
is cleared, as in the source. -/
def execColon (name : String) (toks : List String) (s : S) : S :=
  if s.errorCode ≠ .NO_ERROR then s
  else if s.inWordDefinition then setErr .RECURSIVE_WORD_DEFINITION s
  else
    let (s1, ns) := compileDefBody toks { s with inWordDefinition := true } []
    if s1.errorCode = .NO_ERROR then
      let newId := s1.bodies.length
      match s1.dict.find? (fun p => p.1 == name) with
      | some p =>
          { s1 with
              bodies := (deleteDefinition p.2 s1.bodies) ++ [some ns]
              dict := s1.dict.map (fun q => if q.1 == name then (q.1, newId) else q)
              inWordDefinition := false }
      | none =>
          { s1 with
              bodies := s1.bodies ++ [some ns]
              dict := (name, newId) :: s1.dict
              inWordDefinition := false }
    else { s1 with inWordDefinition := false }

/-!
Stage 2 of execution (execWordStage2 of the source): threaded interpretation
of a compiled body.  A node is addressed by its position in the body list
(the chain is allocated sequentially, so next is position + 1).  The C
function returns the wordNode to resume from, NULL when execution of the
enclosing body must stop; here that is an Option Nat.  The caller loop
(runBody, the while loop of the DEFINED_WORD case) advances from a returned
node r to r + 1 and stops past the end of the body, exactly like
node = node->next turning NULL on the last node.  The recursion of the C
executor (the DEFINED_WORD loop, and the branch-scanning while loop of the
IF case, named ifScan here) is paid for with an explicit fuel argument; a
run with exhausted fuel bails out with the state unchanged, and every
theorem below supplies enough fuel.  Display output (DOT, PRINT_S, EMIT,
CR, PRINT_STACK) keeps its stack effect only.
-/

mutual

/-- execWordStage2 of the source on node i of body. -/
def execWordStage2 : Nat → List word_t → Nat → S → Option Nat × S
  | 0, _, _, s => (none, s)
  | fuel + 1, body, i, s =>
      if s.errorCode ≠ .NO_ERROR then (none, s)
      else
        let w := body.getD i default
        match w.type with
        | .INTEGER =>
            let s1 := push w.intValue s
            if s1.errorCode ≠ .NO_ERROR then (none, s1) else (some i, s1)
        | .DOT =>
            let (_, s1) := pop s
            if s1.errorCode ≠ .NO_ERROR then (none, s1) else (some i, s1)
        | .PLUS =>
            let (a, s1) := pop s
            let (b, s2) := pop s1
            let s3 := push (a + b) s2
            if s3.errorCode ≠ .NO_ERROR then (none, s3) else (some i, s3)
        | .MINUS =>
            let s1 := discard 2 s
            let (a, s2) := peek 0 s1
            let (b, s3) := peek (-1) s2
            let s4 := push (a - b) s3
            if s4.errorCode ≠ .NO_ERROR then (none, s4) else (some i, s4)
        | .MULTIPLY =>
            let (a, s1) := pop s
            let (b, s2) := pop s1
            let s3 := push (a * b) s2
            if s3.errorCode ≠ .NO_ERROR then (none, s3) else (some i, s3)
        | .DIVIDE =>
            let s1 := discard 2 s
            if s1.errorCode ≠ .NO_ERROR then (none, s1)
            else
              let (a, s2) := peek 0 s1
              let (b, s3) := peek (-1) s2
              let (v, s4) := divide a b s3
              if s4.errorCode ≠ .NO_ERROR then (none, s4)
              else (some i, push v s4)
        | .PRINT_S => (some i, s)
        | .DEFINED_WORD =>
            -- run the called body in full; afterwards the C code returns the
            -- loop variable, which is NULL, so the enclosing body stops too
            let b := (s.bodies.getD (w.nodeValue.getD 0) none).getD []
            (none, runBody fuel b (some 0) s)
        | .PRINT_STACK => (some i, s)
        | .EQUAL_TO =>
            let s1 := discard 2 s
            let (a, s2) := peek 0 s1
            let (b, s3) := peek (-1) s2
            let s4 := push (if a = b then -1 else 0) s3
            if s4.errorCode ≠ .NO_ERROR then (none, s4) else (some i, s4)
        | .NOT_EQUAL_TO =>
            let s1 := discard 2 s
            let (a, s2) := peek 0 s1
            let (b, s3) := peek (-1) s2
            let s4 := push (if a ≠ b then -1 else 0) s3
            if s4.errorCode ≠ .NO_ERROR then (none, s4) else (some i, s4)
        | .MORE_THAN =>
            let s1 := discard 2 s
            let (a, s2) := peek 0 s1
            let (b, s3) := peek (-1) s2
            let s4 := push (if a > b then -1 else 0) s3
            if s4.errorCode ≠ .NO_ERROR then (none, s4) else (some i, s4)
        | .LESS_THAN =>
            let s1 := discard 2 s
            let (a, s2) := peek 0 s1
            let (b, s3) := peek (-1) s2
            let s4 := push (if a < b then -1 else 0) s3
            if s4.errorCode ≠ .NO_ERROR then (none, s4) else (some i, s4)
        | .MORE_THAN_ZERO =>
            let (a, s1) := pop s
            let s2 := push (if a > 0 then -1 else 0) s1
            if s2.errorCode ≠ .NO_ERROR then (none, s2) else (some i, s2)
        | .LESS_THAN_ZERO =>
            let (a, s1) := pop s
            let s2 := push (if a < 0 then -1 else 0) s1
            if s2.errorCode ≠ .NO_ERROR then (none, s2) else (some i, s2)
        | .EQUAL_TO_ZERO =>
            let (a, s1) := pop s
            let s2 := push (if a = 0 then -1 else 0) s1
            if s2.errorCode ≠ .NO_ERROR then (none, s2) else (some i, s2)
        | .IF =>
            -- pop the flag and choose the start node, then scan-execute
            -- until an ELSE or THEN node is met
            let (flag, s1) := pop s
            let start := if flag ≠ 0 then i + 1 else w.nodeValue.getD body.length
            if s1.errorCode ≠ .NO_ERROR then (none, s1)
            else
              match ifScan fuel body start s1 with
              | (none, s2) => (none, s2)
              | (some k, s2) =>
                  if (body.getD k default).type = .ELSE then
                    ((body.getD k default).nodeValue, s2)
                  else (some k, s2)
        | .CR => (some i, s)
        | .EMIT =>
            let (_, s1) := pop s
            if s1.errorCode ≠ .NO_ERROR then (none, s1) else (some i, s1)
        | .DO =>
            let s1 := discard 2 s
            if s1.errorCode ≠ .NO_ERROR then (none, s1)
            else
              let (lim, s2) := peek 0 s1
              let s3 := idxPush lim s2
              if s3.errorCode ≠ .NO_ERROR then (none, s3)
              else
                let (ctr, s4) := peek (-1) s3
                let s5 := idxPush ctr s4
                if s5.errorCode ≠ .NO_ERROR then (none, s5)
                else (some i, s5)
        | .LOOP =>
            let s1 := idxIncr s
            if s1.errorCode ≠ .NO_ERROR then (none, s1)
            else
              let (v, s2) := idxPeek 1 s1
              if s2.errorCode ≠ .NO_ERROR then (none, s2)
              else
                let (lim, s3) := idxPeek 2 s2
                if s3.errorCode ≠ .NO_ERROR then (none, s3)
                else if v = lim then (some i, s3)
                else (w.nodeValue, s3)
        | .I =>
            let (v, s1) := idxPeek 1 s
            if s1.errorCode ≠ .NO_ERROR then (none, s1)
            else
              let s2 := push v s1
              if s2.errorCode ≠ .NO_ERROR then (none, s2) else (some i, s2)
        | .DUP =>
            let (v, s1) := peek 1 s
            if s1.errorCode ≠ .NO_ERROR then (none, s1)
            else
              let s2 := push v s1
              if s2.errorCode ≠ .NO_ERROR then (none, s2) else (some i, s2)
        | .MOD =>
            let s1 := discard 2 s
            if s1.errorCode ≠ .NO_ERROR then (none, s1)
            else
              let (a, s2) := peek 0 s1
              let (b, s3) := peek (-1) s2
              let (v, s4) := mod a b s3
              if s4.errorCode ≠ .NO_ERROR then (none, s4)
              else (some i, push v s4)
        | .SLASH_MOD =>
            let s1 := discard 2 s
            if s1.errorCode ≠ .NO_ERROR then (none, s1)
            else
              let (a, s2) := peek 0 s1
              let (b, s3) := peek (-1) s2
              (some i, slashMod a b s3)
        | .NEGATE =>
            let (a, s1) := pop s
            let s2 := push (-a) s1
            if s2.errorCode ≠ .NO_ERROR then (none, s2) else (some i, s2)
        | .ABS =>
            let (a, s1) := pop s
            let s2 := push |a| s1
            if s2.errorCode ≠ .NO_ERROR then (none, s2) else (some i, s2)
        | .MAX =>
            let s1 := discard 2 s
            if s1.errorCode ≠ .NO_ERROR then (none, s1)
            else
              let (a, s2) := peek 0 s1
              let (b, s3) := peek (-1) s2
              (some i, push (max a b) s3)
        | .MIN =>
            let s1 := discard 2 s
            if s1.errorCode ≠ .NO_ERROR then (none, s1)
            else
              let (a, s2) := peek 0 s1
              let (b, s3) := peek (-1) s2
              (some i, push (min a b) s3)
        | .SWAP =>
            let (v, s1) := peek 2 s
            if s1.errorCode ≠ .NO_ERROR then (none, s1)
            else
              let (a, s2) := peek 1 s1
              let s3 := poke 2 a s2
              (some i, poke 1 v s3)
        | .ROT =>
            let (v, s1) := peek 3 s
            if s1.errorCode ≠ .NO_ERROR then (none, s1)
            else
              let (a, s2) := peek 2 s1
              let s3 := poke 3 a s2
              let (b, s4) := peek 1 s3
              let s5 := poke 2 b s4
              (some i, poke 1 v s5)
        | .DROP =>
            let s1 := discard 1 s
            if s1.errorCode ≠ .NO_ERROR then (none, s1) else (some i, s1)
        | .NIP =>
            let (v, s1) := pop s
            if s1.errorCode ≠ .NO_ERROR then (none, s1)
            else
              let s2 := discard 1 s1
              if s2.errorCode ≠ .NO_ERROR then (none, s2)
              else (some i, push v s2)
        | .TUCK =>
            let (v, s1) := peek 1 s
            if s1.errorCode ≠ .NO_ERROR then (none, s1)
            else
              let s2 := push v s1
              if s2.errorCode ≠ .NO_ERROR then (none, s2)
              else
                let (a, s3) := peek 3 s2
                let s4 := poke 2 a s3
                if s4.errorCode ≠ .NO_ERROR then (none, s4)
                else (some i, poke 3 v s4)
        | .OVER =>
            let (v, s1) := peek 2 s
            let s2 := push v s1
            if s2.errorCode ≠ .NO_ERROR then (none, s2) else (some i, s2)
        | .ROLL => (some i, roll s)
        | .PICK => (some i, pick s)
        | _ => (some i, s)

/-- The while loop of the IF case of execWordStage2: execute nodes until an
ELSE or THEN node is reached; a NULL resume inside the branch sets
NODE_NULL_IN_IF. -/
def ifScan : Nat → List word_t → Nat → S → Option Nat × S
  | 0, _, _, s => (none, s)
  | fuel + 1, body, j, s =>
      let w := body.getD j default
      if w.type = .ELSE ∨ w.type = .THEN then (some j, s)
      else
        let (r, s1) := execWordStage2 fuel body j s
        if s1.errorCode ≠ .NO_ERROR then (none, s1)
        else
          match r with
          | none => (none, setErr .NODE_NULL_IN_IF s1)
          | some k => ifScan fuel body (k + 1) s1

/-- The while loop of the DEFINED_WORD case of execWordStage2 (also the way
the top-level driver runs a defined word): execute the current node, stop on
a fault or a NULL resume, otherwise advance to the successor of the resume
node. -/
def runBody : Nat → List word_t → Option Nat → S → S
  | 0, _, _, s => s
  | fuel + 1, body, cur, s =>
      match cur with
      | none => s
      | some i =>
          if i ≥ body.length then s
          else
            let (r, s1) := execWordStage2 fuel body i s
            if s1.errorCode ≠ .NO_ERROR then s1
            else
              match r with
              | none => s1
              | some k => runBody fuel body (some (k + 1)) s1

end

/-!  Observables and helper definitions used by the claim theorems. -/

/-- The live content of the data stack, bottom first. -/
def stackList (s : S) : List Int :=
  (List.range s.top.toNat).map s.stack

/-- State inside a definition body (the COLON case has set the compiling
flag), with everything else as at boot. -/
def sInDef : S := { S0 with inWordDefinition := true }

/-- Contribution of one token to the construction-stack depth during
compilation: conditional-open and loop-open push, close-conditional and
loop-close pop, everything else leaves the depth alone. -/
def delta1 (w : word_t) : Int :=
  match w.type with
  | .IF | .DO => 1
  | .THEN | .LOOP => -1
  | _ => 0

/-- Sum of the depth contributions of the tokens a compilation actually
consumes (it stops at the first SEMICOLON). -/
def defDelta : List word_t → Int
  | [] => 0
  | w :: ws => delta1 w + (if w.type = .SEMICOLON then 0 else defDelta ws)

/-- Node j of ns is an unresolved node of kind t (its branch target is
still NULL). -/
def undefAt (t : wordType) (ns : List word_t) (j : Nat) : Prop :=
  (ns.getD j default).type = t ∧ (ns.getD j default).nodeValue = none

instance (t : wordType) (ns : List word_t) (j : Nat) : Decidable (undefAt t ns j) := by
  unfold undefAt; infer_instance

/-- Node i is the nearest (largest-index) unresolved node of kind t in ns:
it is unresolved of kind t and no later node is. -/
def isLastUndef (t : wordType) (ns : List word_t) (i : Nat) : Prop :=
  i < ns.length ∧ undefAt t ns i ∧ ∀ j, i < j → j < ns.length → ¬ undefAt t ns j

/-- Modelled from the claim wording of C5 (for comparison with the code,
not from the source): the nearest unresolved node of kind t appearing
strictly after position lo. -/
def specLastUndefAfter (t : wordType) (ns : List word_t) (lo : Nat) : Option Nat :=
  ((List.range ns.length).filter fun j => decide (lo < j ∧ undefAt t ns j)).getLast?

/-- Modelled from the claim wording of C5 (for comparison with the code):
the branch target the close-conditional patch is claimed to give the
nearest unresolved conditional-open, namely the node after the nearest
unresolved else-node strictly after that conditional-open, or the
close-conditional node itself (index ns.length) when no such else exists. -/
def specIfTargetOnThen (ns : List word_t) : Option Nat :=
  match lastUndef .IF ns with
  | none => none
  | some i =>
      some (match specLastUndefAfter .ELSE ns i with
            | some e => e + 1
            | none => ns.length)

/-- Straight-line execution of the k nodes starting at j, all assumed to be
integer literals: each one pushes its value. -/
def runSeg (body : List word_t) (j k : Nat) (s : S) : S :=
  match k with
  | 0 => s
  | k + 1 => runSeg body (j + 1) k (push ((body.getD j default).intValue) s)

/-!  Concrete scenarios used by counterexamples and witnesses. -/

/-- Tokens of the body of a definition like : F IF 10 ELSE 20 THEN 30 ; -/
def c4Toks : List word_t :=
  [{ type := .IF }, { type := .INTEGER, intValue := 10 }, { type := .ELSE },
   { type := .INTEGER, intValue := 20 }, { type := .THEN },
   { type := .INTEGER, intValue := 30 }, { type := .SEMICOLON }]

/-- The compiled body of the definition above. -/
def c4Body : List word_t := (compileBody c4Toks sInDef []).2

/-- Tokens of the body of a definition with no else branch, like
: G IF 10 THEN 20 ; -/
def c4bToks : List word_t :=
  [{ type := .IF }, { type := .INTEGER, intValue := 10 }, { type := .THEN },
   { type := .INTEGER, intValue := 20 }, { type := .SEMICOLON }]

/-- The compiled body of the definition above. -/
def c4bBody : List word_t := (compileBody c4bToks sInDef []).2

/-- Tokens of the body of a definition like : F IF ELSE IF THEN THEN ; -/
def c5Toks : List word_t :=
  [{ type := .IF }, { type := .ELSE }, { type := .IF }, { type := .THEN },
   { type := .THEN }, { type := .SEMICOLON }]

/-- The nodes compiled from the first three of those tokens, i.e. the state
of the body just before its first THEN is appended. -/
def c5Prefix : List word_t :=
  [{ type := .IF }, { type := .ELSE }, { type := .IF }]

/-- Tokens of the body of a definition like : F IF LOOP ... (a loop-close
whose construction-stack top is a conditional-open, with no loop-open ever
seen). -/
def c6Toks : List word_t :=
  [{ type := .IF }, { type := .LOOP }, { type := .SEMICOLON }]

/-- The compiled body of : CNT DO I . LOOP ; used to witness the loop-close
execution theorem. -/
def cntBody : List word_t :=
  (compileBody [{ type := .DO }, { type := .I }, { type := .DOT },
                { type := .LOOP }, { type := .SEMICOLON }] sInDef []).2

/-- State with one active loop frame limit 5, counter 0 (as after 5 0 DO). -/
def st7 : S := idxPush 0 (idxPush 5 S0)

/-- The interpreter state after the statements : A 1 ;  : B A ;  : A 2 ;
(define A, define B calling A, then redefine A). -/
def c1S3 : S :=
  execColon "A" ["2", ";"] (execColon "B" ["A", ";"] (execColon "A" ["1", ";"] S0))

/-- Data stack holding 1 then 0 on top, as just before 1 0 / executes. -/
def c3S : S := push 0 (push 1 S0)

/-!  Helper lemmas: list indexing, and the characterization of the backward
scan lastUndef as "the largest unresolved index". -/

lemma getD_set_self (l : List word_t) (n : Nat) (v d : word_t) (h : n < l.length) :
    (l.set n v).getD n d = v := by
  induction l generalizing n with
  | nil => simp at h
  | cons a t ih =>
      cases n with
      | zero => simp [List.set]
      | succ m => simpa [List.set] using ih m (by simpa using h)

lemma getD_set_other (l : List word_t) (n m : Nat) (v d : word_t) (h : n ≠ m) :
    (l.set n v).getD m d = l.getD m d := by
  induction l generalizing n m with
  | nil => simp [List.set]
  | cons a t ih =>
      cases n with
      | zero =>
          cases m with
          | zero => exact absurd rfl h
          | succ k => simp [List.set]
      | succ n0 =>
          cases m with
          | zero => simp [List.set]
          | succ k => simpa [List.set] using ih n0 k (fun hc => h (by omega))

lemma getD_append_last (l : List word_t) (w d : word_t) :
    (l ++ [w]).getD l.length d = w := by
  induction l with
  | nil => rfl
  | cons a t ih => simpa using ih

lemma lastUndefAux_append (t : wordType) (ws : List word_t) (w : word_t) :
    ∀ (i : Nat) (acc : Option Nat),
      lastUndefAux t (ws ++ [w]) i acc =
        if w.type = t ∧ w.nodeValue = none then some (i + ws.length)
        else lastUndefAux t ws i acc := by
  induction ws with
  | nil =>
      intro i acc
      by_cases hw : w.type = t ∧ w.nodeValue = none
      · simp [lastUndefAux, hw]
      · simp [lastUndefAux, hw]
  | cons w0 ws0 ih =>
      intro i acc
      have hstep : lastUndefAux t ((w0 :: ws0) ++ [w]) i acc
          = lastUndefAux t (ws0 ++ [w]) (i + 1)
              (if w0.type = t ∧ w0.nodeValue = none then some i else acc) := rfl
      rw [hstep, ih]
      by_cases hw : w.type = t ∧ w.nodeValue = none
      · rw [if_pos hw, if_pos hw]
        simp only [List.length_cons, Option.some.injEq]
        omega
      · rw [if_neg hw, if_neg hw]
        rfl

lemma lastUndef_append (t : wordType) (ns : List word_t) (w : word_t) :
    lastUndef t (ns ++ [w]) =
      if w.type = t ∧ w.nodeValue = none then some ns.length
      else lastUndef t ns := by
  have h := lastUndefAux_append t ns w 0 none
  simpa [lastUndef] using h

lemma undefAt_append_lt (t : wordType) (ns : List word_t) (w : word_t) (j : Nat)
    (h : j < ns.length) : undefAt t (ns ++ [w]) j ↔ undefAt t ns j := by
  unfold undefAt
  rw [List.getD_append _ _ _ _ h]

lemma undefAt_append_last (t : wordType) (ns : List word_t) (w : word_t) :
    undefAt t (ns ++ [w]) ns.length ↔ (w.type = t ∧ w.nodeValue = none) := by
  unfold undefAt
  rw [getD_append_last]

lemma lastUndef_none_iff (t : wordType) (ns : List word_t) :
    lastUndef t ns = none ↔ ∀ j, j < ns.length → ¬ undefAt t ns j := by
  induction ns using List.reverseRecOn with
  | nil => simp [lastUndef, lastUndefAux]
  | append_singleton ns w ih =>
      rw [lastUndef_append]
      by_cases hw : w.type = t ∧ w.nodeValue = none
      · rw [if_pos hw]
        constructor
        · intro h; exact absurd h (by simp)
        · intro h
          exact absurd ((undefAt_append_last t ns w).mpr hw)
            (h ns.length (by simp))
      · rw [if_neg hw, ih]
        constructor
        · intro h j hj
          have hj2 : j < ns.length + 1 := by simpa using hj
          rcases Nat.lt_or_ge j ns.length with hj1 | hj1
          · rw [undefAt_append_lt t ns w j hj1]; exact h j hj1
          · have hje : j = ns.length := by omega
            subst hje; rw [undefAt_append_last]; exact hw
        · intro h j hj
          rw [← undefAt_append_lt t ns w j hj]
          exact h j (by simpa using Nat.lt_succ_of_lt hj)

lemma lastUndef_some_iff (t : wordType) (ns : List word_t) (i : Nat) :
    lastUndef t ns = some i ↔ isLastUndef t ns i := by
  induction ns using List.reverseRecOn generalizing i with
  | nil =>
      simp [lastUndef, lastUndefAux, isLastUndef]
  | append_singleton ns w ih =>
      rw [lastUndef_append]
      by_cases hw : w.type = t ∧ w.nodeValue = none
      · rw [if_pos hw]
        constructor
        · intro h
          have hi : ns.length = i := by simpa using h
          subst hi
          refine ⟨by simp, (undefAt_append_last t ns w).mpr hw, ?_⟩
          intro j hj1 hj2
          simp at hj2; omega
        · rintro ⟨h1, h2, h3⟩
          have h1b : i < ns.length + 1 := by simpa using h1
          by_cases hi : i = ns.length
          · rw [hi]
          · exfalso
            have hilt : i < ns.length := by omega
            exact h3 ns.length hilt (by simp) ((undefAt_append_last t ns w).mpr hw)
      · rw [if_neg hw, ih]
        constructor
        · rintro ⟨h1, h2, h3⟩
          refine ⟨by simp; omega, ?_, ?_⟩
          · rw [undefAt_append_lt t ns w i h1]; exact h2
          · intro j hj1 hj2
            have hj2b : j < ns.length + 1 := by simpa using hj2
            rcases Nat.lt_or_ge j ns.length with hj | hj
            · rw [undefAt_append_lt t ns w j hj]; exact h3 j hj1 hj
            · have hje : j = ns.length := by omega
              subst hje; rw [undefAt_append_last]; exact hw
        · rintro ⟨h1, h2, h3⟩
          have h1b : i < ns.length + 1 := by simpa using h1
          have hilt : i < ns.length := by
            rcases Nat.lt_or_ge i ns.length with hj | hj
            · exact hj
            · exfalso
              have hje : i = ns.length := by omega
              subst hje
              exact hw ((undefAt_append_last t ns w).mp h2)
          refine ⟨hilt, ?_, ?_⟩
          · rw [← undefAt_append_lt t ns w i hilt]; exact h2
          · intro j hj1 hj2
            rw [← undefAt_append_lt t ns w j hj2]
            exact h3 j hj1 (by simpa using Nat.lt_succ_of_lt hj2)


/-!  Step equations for the stack operations on fault-free states, used to
unfold the executor cases. -/

lemma discard2_eq (s : S) (h0 : s.errorCode = .NO_ERROR) (h2 : 2 ≤ s.top) :
    discard 2 s = { s with top := s.top - 2 } := by
  unfold discard
  rw [if_neg (by simp [h0]), if_neg (by omega : ¬ s.top < 2)]

lemma peek_eq (idx : Int) (s : S) (h0 : s.errorCode = .NO_ERROR)
    (hlo : 0 ≤ s.top - idx) (hhi : s.top - idx < STACK_SIZE) :
    peek idx s = (s.stack (s.top - idx).toNat, s) := by
  unfold peek
  rw [if_neg (by simp [h0]), if_neg (by omega : ¬ s.top - idx < 0),
      if_neg (by simp only [STACK_SIZE] at hhi ⊢; omega : ¬ s.top - idx ≥ STACK_SIZE)]

lemma pop_eq (s : S) (h0 : s.errorCode = .NO_ERROR) (h1 : 0 < s.top) :
    pop s = (s.stack (s.top - 1).toNat, { s with top := s.top - 1 }) := by
  unfold pop
  rw [if_neg (by simp [h0]), if_neg (by omega : ¬ s.top ≤ 0)]

lemma push_eq (v : Int) (s : S) (h0 : s.errorCode = .NO_ERROR)
    (hcap : s.top < STACK_SIZE) :
    push v s = { s with
                  stack := fun k => if k = s.top.toNat then v else s.stack k
                  top := s.top + 1 } := by
  unfold push
  rw [if_neg (by simp [h0]),
      if_neg (by simp only [STACK_SIZE] at hcap ⊢; omega : ¬ s.top ≥ STACK_SIZE)]

/-!  Concrete counterexamples and code-bug evidence. -/

/-- C1: evaluating the code at the failing input : A 1 ;  : B A ;  : A 2 ;
shows the defect the claim denies.  After redefining A, the statement
sequence completes without fault, the dictionary maps A to the fresh body 2
and B to body 1, the storage of the first body of A (arena slot 0) has been
released -- yet the still-reachable body of B consists of a DEFINED_WORD
node whose reference is arena slot 0, the freed body.  Running B would
execute freed memory, so a dangling reference to the old body remains
reachable, contradicting the claim (which states the intended behavior). -/
theorem claim_C1_redefinition_leaves_dangling_ref :
    c1S3.errorCode = .NO_ERROR ∧
    c1S3.dict = [("B", 1), ("A", 2)] ∧
    c1S3.bodies.getD 0 none = none ∧
    c1S3.bodies.getD 1 none =
      some [{ type := .DEFINED_WORD, nodeValue := some 0 }, { type := .SEMICOLON }] := by
  decide

/-- C2 counterexample: the definition : F IF ; (an unmatched
conditional-open) compiles to its closing semicolon without any fault, yet
the ConstructionStack depth immediately afterwards is 1, not 0: the claim
that every successfully ending compilation leaves depth 0 is false. -/
theorem claim_C2_counterexample :
    (compileBody [{ type := .IF }, { type := .SEMICOLON }] sInDef []).1.errorCode = .NO_ERROR ∧
    (compileBody [{ type := .IF }, { type := .SEMICOLON }] sInDef []).1.defTop = 1 ∧
    ¬ (compileBody [{ type := .IF }, { type := .SEMICOLON }] sInDef []).1.defTop = 0 := by
  decide

/-- C3 counterexample: with 1 and 0 on the stack (top index 2), executing
the division word raises DivisionByZero but leaves the top index at 0, not
2: both operands were consumed by the discard that runs before the zero
check, so the stack is not left exactly as it was. -/
theorem claim_C3_counterexample :
    c3S.top = 2 ∧
    (execWordStage2 1 [{ type := .DIVIDE }] 0 c3S).2.errorCode = .DIVISION_BY_ZERO ∧
    (execWordStage2 1 [{ type := .DIVIDE }] 0 c3S).2.top = 0 ∧
    ¬ (execWordStage2 1 [{ type := .DIVIDE }] 0 c3S).2.top = c3S.top := by
  decide

/-- C4 counterexample: in the compiled body IF 10 ELSE 20 THEN 30 ; the
branch target of the conditional-open is node 3 (the node after the else).
With a nonzero flag the claim says execution resumes at that branch target
after the true branch, which would also push 20 and 30 and leave the stack
10 20 30; the code instead resumes after the close-conditional and leaves
10 30.  Resuming at the branch target (the last conjunct but one computes
exactly that resumption) gives a different stack, so the claim is false. -/
theorem claim_C4_counterexample :
    (compileBody c4Toks sInDef []).1.errorCode = .NO_ERROR ∧
    (c4Body.getD 0 default).nodeValue = some 3 ∧
    stackList (runBody 20 c4Body (some 0) (push 1 S0)) = [10, 30] ∧
    stackList (runBody 20 c4Body (some 3) (push 10 S0)) = [10, 20, 30] ∧
    ¬ ([10, 30] = ([10, 20, 30] : List Int)) := by
  decide

/-- C5 counterexample: compiling IF ELSE IF THEN THEN ; succeeds, and when
the first THEN is appended the body so far is IF ELSE IF (c5Prefix).  The
claim (nearest unresolved else strictly after the nearest unresolved
conditional-open; here there is none, since the only else precedes the
second IF) predicts branch target 3, the close-conditional node itself --
the spec-worded patcher specIfTargetOnThen computes exactly that.  The code
instead uses the else found anywhere in the body and sets the branch target
of node 2 to node 2 itself. -/
theorem claim_C5_counterexample :
    (compileBody c5Toks sInDef []).1.errorCode = .NO_ERROR ∧
    (compileBody (c5Toks.take 3) sInDef []).2 = c5Prefix ∧
    specIfTargetOnThen c5Prefix = some 3 ∧
    ((compileBody c5Toks sInDef []).2.getD 2 default).nodeValue = some 2 ∧
    ¬ ((some 2 : Option Nat) = some 3) := by
  decide

/-- C6 counterexample: compiling IF LOOP ; meets a loop-close whose
ConstructionStack top is a conditional-open and whose body never saw a
loop-open; the claim says this raises LoneLoop, but the code raises
InvalidConstruction. -/
theorem claim_C6_counterexample :
    (∀ w ∈ c6Toks, w.type ≠ .DO) ∧
    (compileBody c6Toks sInDef []).1.errorCode = .INVALID_CONSTRUCTION ∧
    ¬ ((compileBody c6Toks sInDef []).1.errorCode = .LONE_LOOP) := by
  decide

/-- C8 counterexample: divide is an executor operation whose sources the
claim cites, yet it does not consult the fault register on entry: invoked
with a pending StackOverflow fault and a zero divisor it overwrites the
register with DivisionByZero, so not every operation is a fault-preserving
no-op. -/
theorem claim_C8_counterexample :
    (divide 1 0 (setErr .STACK_OVERFLOW S0)).2.errorCode = .DIVISION_BY_ZERO ∧
    ¬ ((divide 1 0 (setErr .STACK_OVERFLOW S0)).2.errorCode = .STACK_OVERFLOW) := by
  decide

/-!  General theorems about the executor cases. -/

/-- C7: executing a loop-close node increments the innermost LoopFrame
counter (the cell just below idxTop); if the incremented counter equals the
limit (the cell below it) the returned resume node is the loop-close itself,
so the caller loop continues at its physical successor and the loop exits;
otherwise it is the matching loop-open node, so the caller continues at the
node immediately after the loop-open and the loop repeats.  The state change
touches only the counter cell: idxTop is unchanged, so the LoopFrame is not
removed from the stack on exit. -/
theorem claim_C7_loop_close_exec (fuel : Nat) (body : List word_t) (i d : Nat) (s : S)
    (h0 : s.errorCode = .NO_ERROR)
    (ht : (body.getD i default).type = .LOOP)
    (hd : (body.getD i default).nodeValue = some d)
    (h2 : 2 ≤ s.idxTop) :
    execWordStage2 (fuel + 1) body i s =
      (if s.idxStack (s.idxTop - 1).toNat + 1 = s.idxStack (s.idxTop - 2).toNat
        then some i else some d,
       { s with idxStack := fun k =>
           if k = (s.idxTop - 1).toNat then s.idxStack k + 1 else s.idxStack k }) ∧
    (execWordStage2 (fuel + 1) body i s).2.idxTop = s.idxTop := by
  have hne : ((s.idxTop : Int) - 2).toNat ≠ ((s.idxTop : Int) - 1).toNat := by omega
  set f : Nat → Int :=
    fun k => if k = (s.idxTop - 1).toNat then s.idxStack k + 1 else s.idxStack k with hf
  set s1 : S := { s with idxStack := f } with hs1
  have e0 : idxIncr s = s1 := by
    unfold idxIncr
    rw [if_neg (by simp [h0]), if_neg (by omega : ¬ s.idxTop ≤ 0)]
  have herr1 : s1.errorCode = .NO_ERROR := h0
  have e1 : idxPeek 1 s1 = (s.idxStack (s.idxTop - 1).toNat + 1, s1) := by
    unfold idxPeek
    rw [if_neg (by simp [hs1, h0]), if_neg (by simp [hs1]; omega)]
    simp only [hs1, hf]
    simp
  have e2 : idxPeek 2 s1 = (s.idxStack (s.idxTop - 2).toNat, s1) := by
    unfold idxPeek
    rw [if_neg (by simp [hs1, h0]), if_neg (by simp [hs1]; omega)]
    simp only [hs1, hf]
    simp
    omega
  have hmain : execWordStage2 (fuel + 1) body i s =
      (if s.idxStack (s.idxTop - 1).toNat + 1 = s.idxStack (s.idxTop - 2).toNat
        then some i else some d, s1) := by
    simp only [execWordStage2, ht, hd, e0, e1, e2, h0]
    simp [hs1, h0]
    split <;> rfl
  refine ⟨hmain, ?_⟩
  rw [hmain]

/-- C7 witness: one concrete loop step of : CNT 5 0 DO I . LOOP ; with the
frame limit 5 counter 0. -/
theorem claim_C7_witness :
    execWordStage2 1 cntBody 3 st7 =
      (if st7.idxStack (st7.idxTop - 1).toNat + 1 = st7.idxStack (st7.idxTop - 2).toNat
        then some 3 else some 0,
       { st7 with idxStack := fun k =>
           if k = (st7.idxTop - 1).toNat then st7.idxStack k + 1 else st7.idxStack k }) ∧
    (execWordStage2 1 cntBody 3 st7).2.idxTop = st7.idxTop :=
  claim_C7_loop_close_exec 0 cntBody 3 0 st7 (by decide) (by decide) (by decide) (by decide)

/-- C3 amended: on a zero divisor the division word raises DivisionByZero
and pushes nothing, but it does not leave the top index unchanged: the two
operands have already been consumed by the discard that runs before the zero
check, so top drops by 2 (the operand cells keep their values, the scratch
semantics of the data stack). -/
theorem claim_C3_amended (fuel : Nat) (body : List word_t) (i : Nat) (s : S)
    (h0 : s.errorCode = .NO_ERROR) (h2 : 2 ≤ s.top) (h50 : s.top ≤ STACK_SIZE)
    (ht : (body.getD i default).type = .DIVIDE)
    (hz : s.stack (s.top - 1).toNat = 0) :
    execWordStage2 (fuel + 1) body i s =
      (none, { s with errorCode := .DIVISION_BY_ZERO, top := s.top - 2 }) := by
  have h50b : s.top ≤ 50 := by simpa [STACK_SIZE] using h50
  set s1 : S := { s with top := s.top - 2 } with hs1
  have e0 : discard 2 s = s1 := discard2_eq s h0 h2
  have herr1 : s1.errorCode = .NO_ERROR := h0
  have e1 : peek 0 s1 = (s.stack (s.top - 2).toNat, s1) := by
    have h := peek_eq 0 s1 herr1 (by simp [hs1]; omega) (by simp [hs1, STACK_SIZE]; omega)
    simpa [hs1] using h
  have e2 : peek (-1) s1 = (s.stack (s.top - 1).toNat, s1) := by
    have h := peek_eq (-1) s1 herr1 (by simp [hs1]; omega) (by simp [hs1, STACK_SIZE]; omega)
    simpa [hs1, show s.top - 2 - (-1) = s.top - 1 by ring] using h
  have e3 : divide (s.stack (s.top - 2).toNat) (s.stack (s.top - 1).toNat) s1 =
      (0, setErr .DIVISION_BY_ZERO s1) := by
    rw [hz]
    unfold divide
    rw [if_pos rfl]
  simp only [execWordStage2, ht, e0, e1, e2, e3, h0, herr1]
  simp [setErr, hs1]

/-- C3 witness for the amended theorem at the concrete input 1 0 / (the
stack of c3S holds 1 then 0 with top 2). -/
theorem claim_C3_witness :
    execWordStage2 1 [{ type := .DIVIDE }] 0 c3S =
      (none, { c3S with errorCode := .DIVISION_BY_ZERO, top := c3S.top - 2 }) :=
  claim_C3_amended 0 [{ type := .DIVIDE }] 0 c3S (by decide) (by decide) (by decide)
    (by decide) (by decide)

/-- C10: executing ROLL or PICK first pops the index; when the popped index
is negative the operation returns at once: no fault is raised and the only
state change is that top dropped by one from the pop that consumed the
index. -/
theorem claim_C10_negative_index (fuel : Nat) (b1 b2 : List word_t) (i1 i2 : Nat) (s : S)
    (h0 : s.errorCode = .NO_ERROR) (h1 : 0 < s.top)
    (hneg : s.stack (s.top - 1).toNat < 0)
    (ht1 : (b1.getD i1 default).type = .ROLL)
    (ht2 : (b2.getD i2 default).type = .PICK) :
    execWordStage2 (fuel + 1) b1 i1 s = (some i1, { s with top := s.top - 1 }) ∧
    execWordStage2 (fuel + 1) b2 i2 s = (some i2, { s with top := s.top - 1 }) ∧
    (execWordStage2 (fuel + 1) b1 i1 s).2.errorCode = .NO_ERROR ∧
    (execWordStage2 (fuel + 1) b2 i2 s).2.errorCode = .NO_ERROR := by
  have hpop := pop_eq s h0 h1
  have hroll : roll s = { s with top := s.top - 1 } := by
    unfold roll
    rw [hpop]
    simp only []
    rw [if_pos hneg]
  have hpick : pick s = { s with top := s.top - 1 } := by
    unfold pick
    rw [hpop]
    simp only []
    rw [if_pos hneg]
  have g1 : execWordStage2 (fuel + 1) b1 i1 s = (some i1, { s with top := s.top - 1 }) := by
    simp only [execWordStage2, ht1, h0, hroll]
    simp
  have g2 : execWordStage2 (fuel + 1) b2 i2 s = (some i2, { s with top := s.top - 1 }) := by
    simp only [execWordStage2, ht2, h0, hpick]
    simp
  exact ⟨g1, g2, by rw [g1]; exact h0, by rw [g2]; exact h0⟩

/-- C10 witness at a stack holding 42 with index -3 on top. -/
theorem claim_C10_witness :
    execWordStage2 1 [{ type := .ROLL }] 0 (push (-3) (push 42 S0)) =
      (some 0, { push (-3) (push 42 S0) with top := (push (-3) (push 42 S0)).top - 1 }) ∧
    execWordStage2 1 [{ type := .PICK }] 0 (push (-3) (push 42 S0)) =
      (some 0, { push (-3) (push 42 S0) with top := (push (-3) (push 42 S0)).top - 1 }) ∧
    (execWordStage2 1 [{ type := .ROLL }] 0 (push (-3) (push 42 S0))).2.errorCode = .NO_ERROR ∧
    (execWordStage2 1 [{ type := .PICK }] 0 (push (-3) (push 42 S0))).2.errorCode = .NO_ERROR :=
  claim_C10_negative_index 0 [{ type := .ROLL }] [{ type := .PICK }] 0 0
    (push (-3) (push 42 S0)) (by decide) (by decide) (by decide) (by decide) (by decide)

/-- C9 counterexample: with -32768 and -1 on the stack the division word
runs without fault but pushes -32768, the 16-bit wrap of the out-of-range
flooring quotient, while the claimed value floor(-32768 / -1) = 32768 does
not fit in the 16-bit int; the word does not always push floor(a/b). -/
theorem claim_C9_counterexample :
    (execWordStage2 1 [{ type := .DIVIDE }] 0
        (push (-1) (push (-32768) S0))).2.errorCode = .NO_ERROR ∧
    stackList (execWordStage2 1 [{ type := .DIVIDE }] 0
        (push (-1) (push (-32768) S0))).2 = [-32768] ∧
    Int.fdiv (-32768) (-1) = 32768 ∧
    ¬ (([-32768] : List Int) = [32768]) := by
  decide

/-- Flooring division by a negative divisor in terms of the negated
operands, straight from the constructor equations of Int.fdiv. -/
lemma fdiv_negSucc_eq (a : Int) (n : Nat) :
    Int.fdiv a (Int.negSucc n) = Int.fdiv (-a) (Int.ofNat (n + 1)) := by
  cases a with
  | ofNat m =>
      cases m with
      | zero => rfl
      | succ m => rfl
  | negSucc m => rfl

/-- Flooring division by a negative divisor as Euclidean division of the
negated operands. -/
lemma fdiv_of_neg (a b : Int) (hb : b < 0) : Int.fdiv a b = -a / -b := by
  obtain ⟨n, rfl⟩ : ∃ n : Nat, b = Int.negSucc n := by
    cases b with
    | ofNat k =>
        rw [Int.ofNat_eq_coe] at hb
        exact absurd hb (Int.not_lt.mpr (Int.ofNat_nonneg k))
    | negSucc n => exact ⟨n, rfl⟩
  have hnn : (0 : Int) ≤ Int.ofNat (n + 1) := by
    rw [Int.ofNat_eq_coe]
    exact Int.ofNat_nonneg (n + 1)
  rw [fdiv_negSucc_eq, Int.fdiv_eq_ediv _ hnn,
      show (-(Int.negSucc n) : Int) = Int.ofNat (n + 1) from rfl]

/-- The flooring quotient of 16-bit operands fits in 16 bits except at
a = -32768, b = -1. -/
lemma fdiv_in_range (a b : Int) (ha1 : -32768 ≤ a) (ha2 : a ≤ 32767) (hb : b ≠ 0)
    (hc : ¬ (a = -32768 ∧ b = -1)) :
    -32768 ≤ Int.fdiv a b ∧ Int.fdiv a b ≤ 32767 := by
  rcases lt_or_gt_of_ne hb with hneg | hpos
  · rw [fdiv_of_neg a b hneg]
    have hpos2 : (0 : Int) < -b := by omega
    constructor
    · rw [Int.le_ediv_iff_mul_le hpos2]
      omega
    · have hlt : -a / -b < 32768 := by
        rw [Int.ediv_lt_iff_lt_mul hpos2]
        by_cases hbm : b = -1
        · have hane : a ≠ -32768 := fun h => hc ⟨h, hbm⟩
          omega
        · omega
      omega
  · rw [Int.fdiv_eq_ediv _ (le_of_lt hpos)]
    constructor
    · rw [Int.le_ediv_iff_mul_le hpos]
      omega
    · have hlt : a / b < 32768 := by
        rw [Int.ediv_lt_iff_lt_mul hpos]
        omega
      omega

/-- wrap16 is the identity on the 16-bit int range. -/
lemma wrap16_eq_self (x : Int) (h1 : -32768 ≤ x) (h2 : x ≤ 32767) : wrap16 x = x := by
  unfold wrap16
  omega

/-- wrap16 ignores multiples of 2^16. -/
lemma wrap16_add_mul (x t : Int) : wrap16 (x + 65536 * t) = wrap16 x := by
  unfold wrap16
  rw [show x + 65536 * t + 32768 = x + 32768 + 65536 * t by ring,
      Int.add_mul_emod_self_left]

/-- The flooring remainder of a 16-bit divisor always fits in 16 bits. -/
lemma fdiv_rem_range (a b : Int) (hb1 : -32768 ≤ b) (hb2 : b ≤ 32767) (hb : b ≠ 0) :
    -32767 ≤ a - Int.fdiv a b * b ∧ a - Int.fdiv a b * b ≤ 32766 := by
  rcases lt_or_gt_of_ne hb with hneg | hpos
  · have hpos2 : (0 : Int) < -b := by omega
    have hmod1 : 0 ≤ -a % -b := Int.emod_nonneg _ (by omega)
    have hmod2 : -a % -b < -b := Int.emod_lt_of_pos _ hpos2
    have hdef : -a % -b = -a - -b * (-a / -b) := Int.emod_def _ _
    have hval : a - Int.fdiv a b * b = -(-a % -b) := by
      rw [fdiv_of_neg a b hneg]
      linear_combination hdef
    rw [hval]
    omega
  · have hval : a - Int.fdiv a b * b = Int.fmod a b := by
      rw [Int.fmod_def]
      ring
    rw [hval]
    have hm1 := Int.fmod_nonneg' a hpos
    have hm2 := Int.fmod_lt_of_pos a hpos
    omega

/-- The wrapped remainder computation of the source's mod equals the exact
flooring remainder for every 16-bit divisor: the wraps of the intermediate
quotient, product and difference cancel because the exact remainder is in
range. -/
lemma mod_wrap_eq (a b : Int) (hb1 : -32768 ≤ b) (hb2 : b ≤ 32767) (hb : b ≠ 0) :
    wrap16 (a - wrap16 (Int.fdiv a b) * b) = a - Int.fdiv a b * b := by
  set q := Int.fdiv a b with hq
  set k := (q + 32768) / 65536 with hk
  have hwq : wrap16 q = q - 65536 * k := by
    unfold wrap16
    rw [Int.emod_def, ← hk]
    ring
  have hsplit : a - wrap16 q * b = a - q * b + 65536 * (k * b) := by
    rw [hwq]
    ring
  rw [hsplit, wrap16_add_mul]
  have hr := fdiv_rem_range a b hb1 hb2 hb
  rw [← hq] at hr
  exact wrap16_eq_self _ (by omega) (by omega)

/-- C9 amended: with operands a (below) and b (top) in the 16-bit int range
and nonzero b, the modulo word always pushes the flooring remainder
a - Int.fdiv a b * b (rounding toward negative infinity), and the division
word pushes the flooring quotient Int.fdiv a b except at the single
out-of-range quotient a = -32768, b = -1, where the 16-bit cast wraps the
pushed value to -32768; with b = 0 both raise DivisionByZero.  The closing
conjuncts record the concrete examples of the claim: -7 / 2 = -4,
-7 MOD 2 = 1, 7 / 2 = 3. -/
theorem claim_C9_amended (fuel : Nat) (b1 b2 : List word_t) (i1 i2 : Nat)
    (s : S) (a b : Int)
    (h0 : s.errorCode = .NO_ERROR) (h2 : 2 ≤ s.top) (h50 : s.top ≤ STACK_SIZE)
    (ha : s.stack (s.top - 2).toNat = a) (hb : s.stack (s.top - 1).toNat = b)
    (ha1 : -32768 ≤ a) (ha2 : a ≤ 32767) (hb1 : -32768 ≤ b) (hb2 : b ≤ 32767)
    (ht1 : (b1.getD i1 default).type = .DIVIDE)
    (ht2 : (b2.getD i2 default).type = .MOD) :
    (b ≠ 0 → ¬ (a = -32768 ∧ b = -1) →
      execWordStage2 (fuel + 1) b1 i1 s =
        (some i1, { s with
            stack := fun k => if k = (s.top - 2).toNat then Int.fdiv a b else s.stack k
            top := s.top - 1 })) ∧
    (b ≠ 0 →
      execWordStage2 (fuel + 1) b2 i2 s =
        (some i2, { s with
            stack := fun k => if k = (s.top - 2).toNat then a - Int.fdiv a b * b else s.stack k
            top := s.top - 1 })) ∧
    (a = -32768 → b = -1 →
      execWordStage2 (fuel + 1) b1 i1 s =
        (some i1, { s with
            stack := fun k => if k = (s.top - 2).toNat then -32768 else s.stack k
            top := s.top - 1 })) ∧
    (b = 0 →
      (execWordStage2 (fuel + 1) b1 i1 s).2.errorCode = .DIVISION_BY_ZERO ∧
      (execWordStage2 (fuel + 1) b2 i2 s).2.errorCode = .DIVISION_BY_ZERO) ∧
    Int.fdiv (-7) 2 = -4 ∧ (-7 : Int) - Int.fdiv (-7) 2 * 2 = 1 ∧ Int.fdiv 7 2 = 3 := by
  have h50b : s.top ≤ 50 := by simpa [STACK_SIZE] using h50
  set s1 : S := { s with top := s.top - 2 } with hs1
  have e0 : discard 2 s = s1 := discard2_eq s h0 h2
  have herr1 : s1.errorCode = .NO_ERROR := h0
  have e1 : peek 0 s1 = (a, s1) := by
    rw [peek_eq 0 s1 herr1 (by simp [hs1]; omega) (by simp [hs1, STACK_SIZE]; omega)]
    have hidx : s1.top - 0 = s.top - 2 := by simp [hs1]
    rw [hidx]
    show (s.stack (s.top - 2).toNat, s1) = (a, s1)
    rw [ha]
  have e2 : peek (-1) s1 = (b, s1) := by
    rw [peek_eq (-1) s1 herr1 (by simp [hs1]; omega) (by simp [hs1, STACK_SIZE]; omega)]
    have hidx : s1.top - (-1) = s.top - 1 := by simp [hs1]; omega
    rw [hidx]
    show (s.stack (s.top - 1).toNat, s1) = (b, s1)
    rw [hb]
  have hcap : s1.top < STACK_SIZE := by simp [hs1, STACK_SIZE]; omega
  have htop1 : (s1.top + 1 : Int) = s.top - 1 := by simp [hs1]; omega
  refine ⟨?_, ?_, ?_, ?_, by decide, by decide, by decide⟩
  · intro hbne hcorner
    have hq := fdiv_in_range a b ha1 ha2 hbne hcorner
    have e3 : divide a b s1 = (Int.fdiv a b, s1) := by
      unfold divide
      rw [if_neg hbne, wrap16_eq_self _ hq.1 hq.2]
    have epush1 := push_eq (Int.fdiv a b) s1 herr1 hcap
    have hfin1 : push (Int.fdiv a b) s1 =
        { s with stack := fun k => if k = (s.top - 2).toNat then Int.fdiv a b else s.stack k
                 top := s.top - 1 } := by
      rw [epush1, htop1]
    simp only [execWordStage2, ht1, e0, e1, e2, e3, herr1, h0]
    simp [hfin1, h0]
  · intro hbne
    have e3 : divide a b s1 = (wrap16 (Int.fdiv a b), s1) := by
      unfold divide
      rw [if_neg hbne]
    have e4 : mod a b s1 = (a - Int.fdiv a b * b, s1) := by
      unfold mod
      rw [if_neg hbne, e3]
      dsimp only
      rw [mod_wrap_eq a b hb1 hb2 hbne]
    have epush2 := push_eq (a - Int.fdiv a b * b) s1 herr1 hcap
    have hfin2 : push (a - Int.fdiv a b * b) s1 =
        { s with stack := fun k => if k = (s.top - 2).toNat then a - Int.fdiv a b * b else s.stack k
                 top := s.top - 1 } := by
      rw [epush2, htop1]
    simp only [execWordStage2, ht2, e0, e1, e2, e4, herr1, h0]
    simp [hfin2, h0]
  · intro haeq hbeq
    subst haeq
    subst hbeq
    have e3 : divide (-32768) (-1) s1 = (-32768, s1) := by
      unfold divide
      rw [if_neg (by decide : ¬ ((-1 : Int) = 0))]
      rw [show wrap16 (Int.fdiv (-32768) (-1)) = -32768 from by decide]
    have epush1 := push_eq (-32768 : Int) s1 herr1 hcap
    have hfin1 : push (-32768 : Int) s1 =
        { s with stack := fun k => if k = (s.top - 2).toNat then -32768 else s.stack k
                 top := s.top - 1 } := by
      rw [epush1, htop1]
    simp only [execWordStage2, ht1, e0, e1, e2, e3, herr1, h0]
    simp [hfin1, h0]
  · intro hbz
    subst hbz
    have e3 : divide a 0 s1 = (0, setErr .DIVISION_BY_ZERO s1) := by
      unfold divide
      rw [if_pos rfl]
    have e4 : mod a 0 s1 = (0, setErr .DIVISION_BY_ZERO s1) := by
      unfold mod
      rw [if_pos rfl]
    constructor
    · simp only [execWordStage2, ht1, e0, e1, e2, e3, h0, herr1]
      simp [setErr, h0]
    · simp only [execWordStage2, ht2, e0, e1, e2, e4, h0, herr1]
      simp [setErr, h0]

/-- C9 witness: -7 2 / pushes -4 and -7 2 MOD pushes 1 (the corner and
zero-divisor conjuncts hold vacuously at this input), and the concrete
flooring examples hold. -/
theorem claim_C9_witness :
    ((2 : Int) ≠ 0 → ¬ ((-7 : Int) = -32768 ∧ (2 : Int) = -1) →
      execWordStage2 1 [{ type := .DIVIDE }] 0 (push 2 (push (-7) S0)) =
        (some 0, { push 2 (push (-7) S0) with
            stack := fun k => if k = ((push 2 (push (-7) S0)).top - 2).toNat
                then Int.fdiv (-7) 2 else (push 2 (push (-7) S0)).stack k
            top := (push 2 (push (-7) S0)).top - 1 })) ∧
    ((2 : Int) ≠ 0 →
      execWordStage2 1 [{ type := .MOD }] 0 (push 2 (push (-7) S0)) =
        (some 0, { push 2 (push (-7) S0) with
            stack := fun k => if k = ((push 2 (push (-7) S0)).top - 2).toNat
                then (-7) - Int.fdiv (-7) 2 * 2 else (push 2 (push (-7) S0)).stack k
            top := (push 2 (push (-7) S0)).top - 1 })) ∧
    ((-7 : Int) = -32768 → (2 : Int) = -1 →
      execWordStage2 1 [{ type := .DIVIDE }] 0 (push 2 (push (-7) S0)) =
        (some 0, { push 2 (push (-7) S0) with
            stack := fun k => if k = ((push 2 (push (-7) S0)).top - 2).toNat
                then -32768 else (push 2 (push (-7) S0)).stack k
            top := (push 2 (push (-7) S0)).top - 1 })) ∧
    ((2 : Int) = 0 →
      (execWordStage2 1 [{ type := .DIVIDE }] 0
          (push 2 (push (-7) S0))).2.errorCode = .DIVISION_BY_ZERO ∧
      (execWordStage2 1 [{ type := .MOD }] 0
          (push 2 (push (-7) S0))).2.errorCode = .DIVISION_BY_ZERO) ∧
    Int.fdiv (-7) 2 = -4 ∧ (-7 : Int) - Int.fdiv (-7) 2 * 2 = 1 ∧ Int.fdiv 7 2 = 3 :=
  claim_C9_amended 0 [{ type := .DIVIDE }] [{ type := .MOD }] 0 0
    (push 2 (push (-7) S0)) (-7) 2 (by decide) (by decide) (by decide) (by decide)
    (by decide) (by decide) (by decide) (by decide) (by decide) (by decide) (by decide)

/-- C8 amended: every bounded-stack, compiler and executor operation that
the source guards with an entry check is, under a pending fault, a no-op
returning its dummy value with the whole state (fault register included)
unchanged.  The arithmetic helpers divide, mod and slashMod are the
exception established by the counterexample: they carry no entry check, and
their call sites instead check the register before invoking them. -/
theorem claim_C8_amended (s : S) (h : s.errorCode ≠ .NO_ERROR)
    (v cnt idx off : Int) (t : wordType) (w : word_t) (fuel : Nat)
    (body ns ts : List word_t) (i : Nat) (name : String) (toks : List String) :
    push v s = s ∧ discard cnt s = s ∧ peek idx s = (1, s) ∧ pop s = (1, s) ∧
    poke idx v s = s ∧ defPush t s = s ∧ defDiscard s = s ∧
    defPeek s = (.INTEGER, s) ∧ idxPush v s = s ∧ idxDiscard s = s ∧
    idxPeek off s = (0, s) ∧ idxIncr s = s ∧ roll s = s ∧ pick s = s ∧
    execWordStage1 w s = (w, s) ∧
    execWordStage2 (fuel + 1) body i s = (none, s) ∧
    compileBody ts s ns = (s, ns) ∧
    execColon name toks s = s := by
  have hpop : pop s = (1, s) := by
    unfold pop
    rw [if_pos h]
  have hstage : ∀ u : word_t, execWordStage1 u s = (u, s) := by
    intro u
    unfold execWordStage1
    rw [if_pos h]
  refine ⟨?_, ?_, ?_, hpop, ?_, ?_, ?_, ?_, ?_, ?_, ?_, ?_, ?_, ?_, hstage w, ?_, ?_, ?_⟩
  · unfold push; rw [if_pos h]
  · unfold discard; rw [if_pos h]
  · unfold peek; rw [if_pos h]
  · unfold poke; rw [if_pos h]
  · unfold defPush; rw [if_pos h]
  · unfold defDiscard; rw [if_pos h]
  · unfold defPeek; rw [if_pos h]
  · unfold idxPush; rw [if_pos h]
  · unfold idxDiscard; rw [if_pos h]
  · unfold idxPeek; rw [if_pos h]
  · unfold idxIncr; rw [if_pos h]
  · unfold roll
    rw [hpop]
    simp only []
    rw [if_neg (by norm_num), if_pos h]
  · unfold pick
    rw [hpop]
    simp only []
    rw [if_neg (by norm_num), if_pos h]
  · simp only [execWordStage2]
    rw [if_pos h]
  · cases ts with
    | nil =>
        unfold compileBody
        rw [if_pos h]
    | cons w0 rest =>
        simp only [compileBody, hstage w0]
        rw [if_pos h]
  · unfold execColon
    rw [if_pos h]

/-- C8 witness for the amended no-op theorem under a pending StackUnderflow
fault. -/
theorem claim_C8_witness :
    push 7 (setErr .STACK_UNDERFLOW S0) = setErr .STACK_UNDERFLOW S0 ∧
    discard 1 (setErr .STACK_UNDERFLOW S0) = setErr .STACK_UNDERFLOW S0 ∧
    peek 0 (setErr .STACK_UNDERFLOW S0) = (1, setErr .STACK_UNDERFLOW S0) ∧
    pop (setErr .STACK_UNDERFLOW S0) = (1, setErr .STACK_UNDERFLOW S0) ∧
    poke 0 7 (setErr .STACK_UNDERFLOW S0) = setErr .STACK_UNDERFLOW S0 ∧
    defPush .IF (setErr .STACK_UNDERFLOW S0) = setErr .STACK_UNDERFLOW S0 ∧
    defDiscard (setErr .STACK_UNDERFLOW S0) = setErr .STACK_UNDERFLOW S0 ∧
    defPeek (setErr .STACK_UNDERFLOW S0) = (.INTEGER, setErr .STACK_UNDERFLOW S0) ∧
    idxPush 7 (setErr .STACK_UNDERFLOW S0) = setErr .STACK_UNDERFLOW S0 ∧
    idxDiscard (setErr .STACK_UNDERFLOW S0) = setErr .STACK_UNDERFLOW S0 ∧
    idxPeek 1 (setErr .STACK_UNDERFLOW S0) = (0, setErr .STACK_UNDERFLOW S0) ∧
    idxIncr (setErr .STACK_UNDERFLOW S0) = setErr .STACK_UNDERFLOW S0 ∧
    roll (setErr .STACK_UNDERFLOW S0) = setErr .STACK_UNDERFLOW S0 ∧
    pick (setErr .STACK_UNDERFLOW S0) = setErr .STACK_UNDERFLOW S0 ∧
    execWordStage1 { type := .PLUS } (setErr .STACK_UNDERFLOW S0) =
      ({ type := .PLUS }, setErr .STACK_UNDERFLOW S0) ∧
    execWordStage2 1 [{ type := .PLUS }] 0 (setErr .STACK_UNDERFLOW S0) =
      (none, setErr .STACK_UNDERFLOW S0) ∧
    compileBody [{ type := .SEMICOLON }] (setErr .STACK_UNDERFLOW S0) [] =
      (setErr .STACK_UNDERFLOW S0, []) ∧
    execColon "F" [";"] (setErr .STACK_UNDERFLOW S0) = setErr .STACK_UNDERFLOW S0 :=
  claim_C8_amended (setErr .STACK_UNDERFLOW S0) (by decide) 7 1 0 1 .IF
    { type := .PLUS } 0 [{ type := .PLUS }] [] [{ type := .SEMICOLON }] 0 "F" [";"]

/-!  Stage-1 bookkeeping lemmas for the construction stack. -/

lemma execWordStage1_type (w : word_t) (s : S) :
    (execWordStage1 w s).1.type = w.type := by
  unfold execWordStage1
  by_cases h : s.errorCode = .NO_ERROR
  · rw [if_neg (by simp [h])]
    rcases hdp : defPeek s with ⟨t, s1⟩
    cases hty : w.type <;> simp only [hty, hdp] <;> (try split_ifs) <;> first | rfl | exact hty
  · rw [if_pos (by simp [h])]

lemma patchStep_defTop (w : word_t) (ns : List word_t) (s : S) :
    (patchStep w ns s).1.defTop = s.defTop := by
  unfold patchStep
  split_ifs <;> first | rfl | (split <;> rfl)

lemma defPush_defTop (t : wordType) (s : S) (h0 : s.errorCode = .NO_ERROR) :
    (defPush t s).errorCode = .NO_ERROR → (defPush t s).defTop = s.defTop + 1 := by
  unfold defPush
  rw [if_neg (by simp [h0])]
  split_ifs
  · intro hc; simp [setErr] at hc
  · intro _; rfl

lemma defDiscard_defTop (s : S) (h0 : s.errorCode = .NO_ERROR) :
    (defDiscard s).errorCode = .NO_ERROR → (defDiscard s).defTop = s.defTop - 1 := by
  unfold defDiscard
  rw [if_neg (by simp [h0])]
  split_ifs
  · intro hc; simp [setErr] at hc
  · intro _; rfl

lemma defPeek_defTop (s : S) : (defPeek s).2.defTop = s.defTop := by
  unfold defPeek
  split_ifs <;> rfl

lemma defPeek_snd (s : S) (h0 : s.errorCode = .NO_ERROR) :
    ((defPeek s).2 = s ∧ (defPeek s).2.errorCode = .NO_ERROR) ∨
      (defPeek s).2.errorCode = .STACK_ERROR := by
  unfold defPeek
  rw [if_neg (by simp [h0])]
  split_ifs
  · right; rfl
  · left; exact ⟨rfl, h0⟩

lemma execWordStage1_defTop (w : word_t) (s : S) (h0 : s.errorCode = .NO_ERROR) :
    (execWordStage1 w s).2.errorCode = .NO_ERROR →
    (execWordStage1 w s).2.defTop = s.defTop + delta1 w := by
  unfold execWordStage1
  rw [if_neg (by simp [h0])]
  rcases hdp : defPeek s with ⟨t, s1⟩
  have hs1top : s1.defTop = s.defTop := by
    have hq := defPeek_defTop s
    rw [hdp] at hq
    exact hq
  have hs1cases := defPeek_snd s h0
  rw [hdp] at hs1cases
  dsimp only at hs1cases
  cases hty : w.type <;> simp only [delta1, hty, hdp] <;> intro h1 <;>
    (try ((try dsimp only at h1 ⊢); omega))
  case COLON =>
    split_ifs at h1 ⊢
    · simp [setErr] at h1
    · omega
  case IF =>
    split_ifs at h1 ⊢
    · dsimp only at h1
      simp [setErr] at h1
    · dsimp only at h1 ⊢
      have hq := defPush_defTop .IF s h0 h1
      omega
  case DO =>
    split_ifs at h1 ⊢
    · dsimp only at h1
      simp [setErr] at h1
    · dsimp only at h1 ⊢
      have hq := defPush_defTop .DO s h0 h1
      omega
  case ELSE =>
    split_ifs at h1 ⊢ <;> (try dsimp only at h1 ⊢) <;>
      first
      | (exfalso; simp [setErr] at h1)
      | omega
      | simp_all
  case THEN =>
    rcases hs1cases with ⟨heq, herr⟩ | herr
    · subst heq
      split_ifs at h1 ⊢ <;> (try dsimp only at h1 ⊢) <;>
        first
        | (exfalso; simp [setErr] at h1)
        | omega
        | (have hq := defDiscard_defTop _ h0 h1; omega)
        | simp_all
    · have hnoop : defDiscard s1 = s1 := by
        unfold defDiscard
        rw [if_pos (by simp [herr])]
      split_ifs at h1 ⊢ <;> (try dsimp only at h1 ⊢) <;>
        first
        | (exfalso; simp [setErr] at h1)
        | omega
        | simp_all
  case I =>
    split_ifs at h1 ⊢ <;> (try dsimp only at h1 ⊢) <;>
      first
      | (exfalso; simp [setErr] at h1)
      | omega
  case LOOP =>
    rcases hs1cases with ⟨heq, herr⟩ | herr
    · subst heq
      split_ifs at h1 ⊢ <;> (try dsimp only at h1 ⊢) <;>
        first
        | (exfalso; simp [setErr] at h1)
        | omega
        | (have hq := defDiscard_defTop _ h0 h1; omega)
        | simp_all
    · have hnoop : defDiscard s1 = s1 := by
        unfold defDiscard
        rw [if_pos (by simp [herr])]
      split_ifs at h1 ⊢ <;> (try dsimp only at h1 ⊢) <;>
        first
        | (exfalso; simp [setErr] at h1)
        | omega
        | simp_all

/-- C2 amended: a compilation that ends without fault changes the defStack
depth by the number of conditional-open and loop-open tokens minus the
number of close-conditional and loop-close tokens among the tokens consumed
(compilation stops at the first SEMICOLON).  The compiler never resets the
stack, so depth 0 after a successful compilation holds only when those
counts balance the starting depth: : F IF ; compiles without fault and
leaves depth 1 (the counterexample), and the leftover entry persists into
later definitions. -/
theorem claim_C2_amended (ts : List word_t) (s : S) (ns : List word_t)
    (h : (compileBody ts s ns).1.errorCode = .NO_ERROR) :
    (compileBody ts s ns).1.defTop = s.defTop + defDelta ts := by
  induction ts generalizing s ns with
  | nil =>
      exfalso
      by_cases h0 : s.errorCode = .NO_ERROR
      · unfold compileBody at h
        rw [if_neg (by simp [h0])] at h
        simp [setErr] at h
      · unfold compileBody at h
        rw [if_pos (by simp [h0])] at h
        exact h0 h
  | cons w rest ih =>
      by_cases h0 : s.errorCode = .NO_ERROR
      · rcases hst : execWordStage1 w s with ⟨w1, s1⟩
        have hdty : w1.type = w.type := by
          have hq := execWordStage1_type w s
          rw [hst] at hq
          exact hq
        by_cases he1 : s1.errorCode = .NO_ERROR
        · rcases hpa : patchStep w1 ns s1 with ⟨s2, ns2⟩
          have hd2 : s2.defTop = s1.defTop := by
            have hq := patchStep_defTop w1 ns s1
            rw [hpa] at hq
            exact hq
          have hd1 : s1.defTop = s.defTop + delta1 w := by
            have hq := execWordStage1_defTop w s h0
            rw [hst] at hq
            exact hq he1
          by_cases he2 : s2.errorCode = .NO_ERROR
          · unfold compileBody at h ⊢
            rw [hst] at h ⊢
            dsimp only at h ⊢
            rw [if_neg (by simp [he1]), hpa] at h ⊢
            dsimp only at h ⊢
            rw [if_neg (by simp [he2])] at h ⊢
            by_cases hsem : w1.type = .SEMICOLON
            · rw [if_pos hsem] at h ⊢
              have hwsem : w.type = .SEMICOLON := by rw [← hdty]; exact hsem
              have hdd : defDelta (w :: rest) = delta1 w := by
                simp only [defDelta]
                rw [if_pos hwsem]
                ring
              rw [hdd, hd2, hd1]
            · rw [if_neg hsem] at h ⊢
              have hwsem : ¬ w.type = .SEMICOLON := by rw [← hdty]; exact hsem
              have hdd : defDelta (w :: rest) = delta1 w + defDelta rest := by
                simp only [defDelta]
                rw [if_neg hwsem]
              have hrec := ih s2 ns2 h
              rw [hrec, hd2, hd1, hdd]
              ring
          · exfalso
            unfold compileBody at h
            rw [hst] at h
            dsimp only at h
            rw [if_neg (by simp [he1]), hpa] at h
            dsimp only at h
            rw [if_pos (by simp [he2])] at h
            exact he2 h
        · exfalso
          unfold compileBody at h
          rw [hst] at h
          dsimp only at h
          rw [if_pos (by simp [he1])] at h
          exact he1 h
      · exfalso
        have hst : execWordStage1 w s = (w, s) := by
          unfold execWordStage1
          rw [if_pos (by simp [h0])]
        unfold compileBody at h
        rw [hst] at h
        dsimp only at h
        rw [if_pos (by simp [h0])] at h
        exact h0 h

/-- C2 witness: the balanced body IF THEN ; compiles without fault and the
final depth equals the starting depth plus the token balance (here 0). -/
theorem claim_C2_witness :
    (compileBody [{ type := .IF }, { type := .THEN }, { type := .SEMICOLON }]
        sInDef []).1.errorCode = .NO_ERROR ∧
    (compileBody [{ type := .IF }, { type := .THEN }, { type := .SEMICOLON }]
        sInDef []).1.defTop =
      sInDef.defTop +
        defDelta [{ type := .IF }, { type := .THEN }, { type := .SEMICOLON }] :=
  ⟨by decide,
   claim_C2_amended [{ type := .IF }, { type := .THEN }, { type := .SEMICOLON }]
     sInDef [] (by decide)⟩

lemma getD_append_last_of_len (l : List word_t) (w d : word_t) (n : Nat)
    (h : l.length = n) : (l ++ [w]).getD n d = w := by
  subst h
  exact getD_append_last l w d

lemma defPeek_eq_err (s : S) (h0 : s.errorCode = .NO_ERROR)
    (h : s.defTop < 1 ∨ s.defTop ≥ STACK_SIZE) :
    defPeek s = (.INTEGER, setErr .STACK_ERROR s) := by
  unfold defPeek
  rw [if_neg (by simp [h0]), if_pos h]

lemma defPeek_eq_ok (s : S) (h0 : s.errorCode = .NO_ERROR)
    (h1 : 1 ≤ s.defTop) (h2 : s.defTop < STACK_SIZE) :
    defPeek s = (s.defStack (s.defTop - 1).toNat, s) := by
  unfold defPeek
  have h2b : s.defTop < 50 := by simpa [STACK_SIZE] using h2
  rw [if_neg (by simp [h0]),
      if_neg (by push_neg; exact ⟨by omega, by simp only [STACK_SIZE]; omega⟩)]

/-- C6 amended: for a loop-close token compiled inside a definition, the
fault depends on the ConstructionStack top, not on whether a loop-open was
ever seen: with an empty stack defPeek raises StackError; with a top that is
not a loop-open the fault is InvalidConstruction (regardless of any earlier
loop-open); with a loop-open on top the entry is popped and the subsequent
backward patch raises LoneLoop exactly when no unresolved loop-open node
exists in the body compiled so far, otherwise it links the two nodes. -/
theorem claim_C6_amended (w : word_t) (s : S) (ns : List word_t)
    (h0 : s.errorCode = .NO_ERROR) (hin : s.inWordDefinition = true)
    (ht : w.type = .LOOP) :
    (s.defTop < 1 →
        (execWordStage1 w s).2.errorCode = .STACK_ERROR ∧
        (execWordStage1 w s).2.defTop = s.defTop) ∧
    (1 ≤ s.defTop → s.defTop < STACK_SIZE →
      s.defStack (s.defTop - 1).toNat ≠ .DO →
        (execWordStage1 w s).2.errorCode = .INVALID_CONSTRUCTION ∧
        (execWordStage1 w s).2.defTop = s.defTop) ∧
    (1 ≤ s.defTop → s.defTop < STACK_SIZE →
      s.defStack (s.defTop - 1).toNat = .DO →
        (execWordStage1 w s).2.errorCode = .NO_ERROR ∧
        (execWordStage1 w s).2.defTop = s.defTop - 1 ∧
        ((∀ j, j < ns.length → ¬ undefAt .DO ns j) →
            (patchStep (execWordStage1 w s).1 ns
                (execWordStage1 w s).2).1.errorCode = .LONE_LOOP) ∧
        (∀ d, isLastUndef .DO ns d →
            (patchStep (execWordStage1 w s).1 ns
                (execWordStage1 w s).2).1.errorCode = .NO_ERROR ∧
            ((patchStep (execWordStage1 w s).1 ns
                (execWordStage1 w s).2).2.getD d default).nodeValue = some ns.length ∧
            ((patchStep (execWordStage1 w s).1 ns
                (execWordStage1 w s).2).2.getD ns.length default).nodeValue = some d)) := by
  refine ⟨?_, ?_, ?_⟩
  · intro hlt
    have hst : execWordStage1 w s = (w, setErr .STACK_ERROR s) := by
      unfold execWordStage1
      rw [if_neg (by simp [h0])]
      simp only [ht, hin, Bool.not_true]
      rw [if_neg (by simp)]
      rw [defPeek_eq_err s h0 (Or.inl hlt)]
      dsimp only
      rw [if_pos (by simp), if_pos (by simp [setErr])]
    rw [hst]
    exact ⟨rfl, rfl⟩
  · intro hge hlt hnd
    have hst : execWordStage1 w s = (w, setErr .INVALID_CONSTRUCTION s) := by
      unfold execWordStage1
      rw [if_neg (by simp [h0])]
      simp only [ht, hin, Bool.not_true]
      rw [if_neg (by simp)]
      rw [defPeek_eq_ok s h0 hge hlt]
      dsimp only
      rw [if_pos hnd, if_neg (by simp [h0])]
    rw [hst]
    exact ⟨rfl, rfl⟩
  · intro hge hlt hd
    have hdd : defDiscard s = { s with defTop := s.defTop - 1 } := by
      unfold defDiscard
      rw [if_neg (by simp [h0]), if_neg (by omega : ¬ s.defTop ≤ 0)]
    have hst : execWordStage1 w s =
        ({ w with nodeValue := none }, { s with defTop := s.defTop - 1 }) := by
      unfold execWordStage1
      rw [if_neg (by simp [h0])]
      simp only [ht, hin, Bool.not_true]
      rw [if_neg (by simp)]
      rw [defPeek_eq_ok s h0 hge hlt]
      dsimp only
      rw [if_neg (by rw [hd]; simp), hdd]
      rw [hin]
    rw [hst]
    refine ⟨h0, rfl, ?_, ?_⟩
    · intro hno
      have hnone : lastUndef .DO ns = none := (lastUndef_none_iff .DO ns).mpr hno
      unfold patchStep
      rw [if_pos (show ({ w with nodeValue := none } : word_t).type = .LOOP from ht),
          hnone]
      rfl
    · intro d hdl
      have hsome : lastUndef .DO ns = some d := (lastUndef_some_iff .DO ns d).mpr hdl
      unfold patchStep
      rw [if_pos (show ({ w with nodeValue := none } : word_t).type = .LOOP from ht),
          hsome]
      refine ⟨h0, ?_, ?_⟩
      · dsimp only
        rw [List.getD_append _ _ _ _ (by simpa using hdl.1),
            getD_set_self _ _ _ _ hdl.1]
      · dsimp only
        rw [getD_append_last_of_len _ _ _ _ (by simp)]

/-- C6 witness: with an IF on top of the construction stack, a LOOP token
raises InvalidConstruction and leaves the depth alone, even though no
loop-open was ever seen. -/
theorem claim_C6_witness :
    (execWordStage1 { type := .LOOP } (defPush .IF sInDef)).2.errorCode =
      .INVALID_CONSTRUCTION ∧
    (execWordStage1 { type := .LOOP } (defPush .IF sInDef)).2.defTop =
      (defPush .IF sInDef).defTop :=
  (claim_C6_amended { type := .LOOP } (defPush .IF sInDef) [] (by decide) (by decide)
      (by decide)).2.1 (by decide) (by decide) (by decide)

/-- C5 amended: when a close-conditional node is appended, the backward scan
finds the nearest unresolved conditional-open and, independently, the
nearest unresolved else-node anywhere in the body compiled so far (not
restricted to else-nodes after that conditional-open).  The conditional-open
is pointed at the node after that else when one exists, otherwise at the
close-conditional node itself; the else (when found) is pointed at the
close-conditional; the close-conditional points back at the conditional-open;
and LoneThen is raised exactly when no unresolved conditional-open exists. -/
theorem claim_C5_amended (w : word_t) (ns : List word_t) (s : S)
    (ht : w.type = .THEN) (h0 : s.errorCode = .NO_ERROR) :
    ((∀ j, j < ns.length → ¬ undefAt .IF ns j) →
        (patchStep w ns s).1.errorCode = .LONE_THEN) ∧
    (∀ i, isLastUndef .IF ns i →
        (patchStep w ns s).1 = s ∧
        ((patchStep w ns s).2.getD ns.length default).nodeValue = some i ∧
        ((∀ j, j < ns.length → ¬ undefAt .ELSE ns j) →
            ((patchStep w ns s).2.getD i default).nodeValue = some ns.length) ∧
        (∀ e, isLastUndef .ELSE ns e →
            ((patchStep w ns s).2.getD i default).nodeValue = some (e + 1) ∧
            ((patchStep w ns s).2.getD e default).nodeValue = some ns.length)) := by
  have hwl : ¬ (w.type = .LOOP) := by rw [ht]; simp
  constructor
  · intro hno
    have hnone : lastUndef .IF ns = none := (lastUndef_none_iff .IF ns).mpr hno
    unfold patchStep
    rw [if_neg hwl, if_pos ht, hnone]
    rfl
  · intro i hi
    have hsome : lastUndef .IF ns = some i := (lastUndef_some_iff .IF ns i).mpr hi
    unfold patchStep
    rw [if_neg hwl, if_pos ht, hsome]
    refine ⟨rfl, ?_, ?_, ?_⟩
    · dsimp only
      rcases he : lastUndef .ELSE ns with _ | e
      · dsimp only
        rw [getD_append_last_of_len _ _ _ _ (by simp)]
      · dsimp only
        rw [getD_append_last_of_len _ _ _ _ (by simp)]
    · intro hnoe
      have hnone : lastUndef .ELSE ns = none := (lastUndef_none_iff .ELSE ns).mpr hnoe
      rw [hnone]
      dsimp only
      rw [List.getD_append _ _ _ _ (by simpa using hi.1),
          getD_set_self _ _ _ _ hi.1]
    · intro e he
      have hsomee : lastUndef .ELSE ns = some e := (lastUndef_some_iff .ELSE ns e).mpr he
      rw [hsomee]
      dsimp only
      have hne : i ≠ e := by
        intro hie
        have h1 := hi.2.1.1
        have h2 := he.2.1.1
        rw [hie, h2] at h1
        exact absurd h1 (by simp)
      constructor
      · rw [List.getD_append _ _ _ _ (by simpa using hi.1),
            getD_set_other _ _ _ _ _ (Ne.symm hne),
            getD_set_self _ _ _ _ hi.1]
      · rw [List.getD_append _ _ _ _ (by simpa using he.1),
            getD_set_self _ _ _ _ (by simpa using he.1)]

/-- C5 witness: patching the first THEN of IF 10 ELSE 20 THEN: the
conditional-open at 0 is pointed after the else (node 3), the else at 2 is
pointed at the close node 4, and the close node points back at node 0. -/
theorem claim_C5_witness :
    (patchStep { type := .THEN }
        [{ type := .IF }, { type := .INTEGER, intValue := 10 },
         { type := .ELSE }, { type := .INTEGER, intValue := 20 }] sInDef).1 = sInDef ∧
    ((patchStep { type := .THEN }
        [{ type := .IF }, { type := .INTEGER, intValue := 10 },
         { type := .ELSE }, { type := .INTEGER, intValue := 20 }]
        sInDef).2.getD 4 default).nodeValue = some 0 ∧
    ((patchStep { type := .THEN }
        [{ type := .IF }, { type := .INTEGER, intValue := 10 },
         { type := .ELSE }, { type := .INTEGER, intValue := 20 }]
        sInDef).2.getD 0 default).nodeValue = some (2 + 1) ∧
    ((patchStep { type := .THEN }
        [{ type := .IF }, { type := .INTEGER, intValue := 10 },
         { type := .ELSE }, { type := .INTEGER, intValue := 20 }]
        sInDef).2.getD 2 default).nodeValue = some 4 := by
  have h := claim_C5_amended { type := .THEN }
    [{ type := .IF }, { type := .INTEGER, intValue := 10 },
     { type := .ELSE }, { type := .INTEGER, intValue := 20 }] sInDef (by decide) (by decide)
  have h2 := h.2 0 ⟨by decide, by decide,
    fun j h1 h2 => by
      have h2b : j < 4 := by simpa using h2
      interval_cases j <;> decide⟩
  have h3 := h2.2.2.2 2 ⟨by decide, by decide,
    fun j h1 h2 => by
      have h2b : j < 4 := by simpa using h2
      interval_cases j <;> decide⟩
  exact ⟨h2.1, h2.2.1, h3.1, h3.2⟩

/-!  Lemmas for the IF branch scan. -/

lemma push_err_of (v : Int) (s : S) :
    (push v s).errorCode = .NO_ERROR → s.errorCode = .NO_ERROR := by
  by_cases h : s.errorCode = .NO_ERROR
  · exact fun _ => h
  · unfold push
    rw [if_pos (by simp [h])]
    exact fun h1 => h1

lemma runSeg_err (body : List word_t) (k : Nat) :
    ∀ (j : Nat) (s : S),
      (runSeg body j k s).errorCode = .NO_ERROR → s.errorCode = .NO_ERROR := by
  induction k with
  | zero => exact fun j s h => h
  | succ k ih =>
      intro j s h
      exact push_err_of _ _ (ih (j + 1) (push ((body.getD j default).intValue) s) h)

lemma ifScan_seg (body : List word_t) (e : Nat)
    (hstop : (body.getD e default).type = .ELSE ∨ (body.getD e default).type = .THEN) :
    ∀ (k : Nat), ∀ (fuel j : Nat) (s : S), j + k = e → k < fuel →
      (∀ m, j ≤ m → m < e → (body.getD m default).type = .INTEGER) →
      (runSeg body j k s).errorCode = .NO_ERROR →
      ifScan fuel body j s = (some e, runSeg body j k s) := by
  intro k
  induction k with
  | zero =>
      intro fuel j s hje hf hseg hrun
      obtain ⟨f, rfl⟩ : ∃ f, fuel = f + 1 := ⟨fuel - 1, by omega⟩
      have hj : j = e := by omega
      subst hj
      simp only [ifScan]
      rw [if_pos hstop]
      rfl
  | succ k ih =>
      intro fuel j s hje hf hseg hrun
      obtain ⟨f, rfl⟩ : ∃ f, fuel = f + 1 := ⟨fuel - 1, by omega⟩
      obtain ⟨f2, rfl⟩ : ∃ f2, f = f2 + 1 := ⟨f - 1, by omega⟩
      have htj : (body.getD j default).type = .INTEGER := hseg j le_rfl (by omega)
      have hp1 : (push ((body.getD j default).intValue) s).errorCode = .NO_ERROR :=
        runSeg_err body k (j + 1) _ hrun
      have hexec : execWordStage2 (f2 + 1) body j s =
          (some j, push ((body.getD j default).intValue) s) := by
        have hs0 : s.errorCode = .NO_ERROR := push_err_of _ _ hp1
        simp only [execWordStage2, htj]
        rw [if_neg (by simp [hs0]), if_neg (by push_neg; simpa using hp1)]
      simp only [ifScan]
      rw [if_neg (by rw [htj]; simp), hexec]
      dsimp only
      rw [if_neg (by push_neg; simpa using hp1)]
      exact ih (f2 + 1) (j + 1) (push ((body.getD j default).intValue) s)
        (by omega) (by omega) (fun m h1 h2 => hseg m (by omega) h2) hrun

/-- The IF case of the executor reduced to its scan: the flag is popped,
the scan starts at the physical successor on a nonzero flag and at the
stored branch target on a zero flag, runs through a straight segment of
integer literals, and stops at the first else/close node, whose kind
determines the returned resume node. -/
lemma execIf_scan_stop (fuel : Nat) (body : List word_t) (i start e : Nat) (s : S)
    (h0 : s.errorCode = .NO_ERROR)
    (hif : (body.getD i default).type = .IF)
    (htop : 0 < s.top)
    (hstart : start = (if s.stack (s.top - 1).toNat ≠ 0 then i + 1
        else ((body.getD i default).nodeValue).getD body.length))
    (hseg : ∀ j, start ≤ j → j < e → (body.getD j default).type = .INTEGER)
    (hstop : (body.getD e default).type = .ELSE ∨ (body.getD e default).type = .THEN)
    (hse : start ≤ e)
    (hrun : (runSeg body start (e - start) { s with top := s.top - 1 }).errorCode =
      .NO_ERROR)
    (hfuel : e - start < fuel) :
    execWordStage2 (fuel + 1) body i s =
      (if (body.getD e default).type = .ELSE
        then ((body.getD e default).nodeValue,
              runSeg body start (e - start) { s with top := s.top - 1 })
        else (some e, runSeg body start (e - start) { s with top := s.top - 1 })) := by
  have hscan := ifScan_seg body e hstop (e - start) fuel start
    { s with top := s.top - 1 } (by omega) hfuel hseg hrun
  have hpop := pop_eq s h0 htop
  simp only [execWordStage2, hif]
  rw [hpop]
  dsimp only
  by_cases hflag : s.stack (s.top - 1).toNat ≠ 0
  · have hst : start = i + 1 := by rw [hstart, if_pos hflag]
    subst hst
    rw [if_pos hflag, if_neg (by simp [h0]), if_neg (by simp [h0]), hscan]
  · have hst : start = ((body.getD i default).nodeValue).getD body.length := by
      rw [hstart, if_neg hflag]
    subst hst
    rw [if_neg hflag, if_neg (by simp [h0]), if_neg (by simp [h0]), hscan]

/-- C4 amended: executing a conditional-open node pops the flag and starts
scan-execution at the physical successor when the flag is nonzero and at
the stored branch target when it is zero (the node after the else, or the
close-conditional when no else exists); the nodes from the start node up to
but excluding the first else/close node physically reached (here a straight
segment of integer literals) are executed; when the scan stops at an else
node the returned resume node is that else's branch target m (the matching
close-conditional), and when it stops at a close-conditional node c the
resume node is c itself -- either way the caller loop continues at the node
after the close-conditional, so on a nonzero flag execution resumes after
the matching close and not at the conditional-open branch target. -/
theorem claim_C4_amended :
    (∀ (fuel : Nat) (body : List word_t) (i start e m : Nat) (s : S),
      s.errorCode = .NO_ERROR →
      (body.getD i default).type = .IF →
      0 < s.top →
      start = (if s.stack (s.top - 1).toNat ≠ 0 then i + 1
          else ((body.getD i default).nodeValue).getD body.length) →
      (∀ j, start ≤ j → j < e → (body.getD j default).type = .INTEGER) →
      (body.getD e default).type = .ELSE →
      (body.getD e default).nodeValue = some m →
      start ≤ e →
      (runSeg body start (e - start) { s with top := s.top - 1 }).errorCode =
        .NO_ERROR →
      e - start < fuel →
      execWordStage2 (fuel + 1) body i s =
        (some m, runSeg body start (e - start) { s with top := s.top - 1 })) ∧
    (∀ (fuel : Nat) (body : List word_t) (i start c : Nat) (s : S),
      s.errorCode = .NO_ERROR →
      (body.getD i default).type = .IF →
      0 < s.top →
      start = (if s.stack (s.top - 1).toNat ≠ 0 then i + 1
          else ((body.getD i default).nodeValue).getD body.length) →
      (∀ j, start ≤ j → j < c → (body.getD j default).type = .INTEGER) →
      (body.getD c default).type = .THEN →
      start ≤ c →
      (runSeg body start (c - start) { s with top := s.top - 1 }).errorCode =
        .NO_ERROR →
      c - start < fuel →
      execWordStage2 (fuel + 1) body i s =
        (some c, runSeg body start (c - start) { s with top := s.top - 1 })) := by
  constructor
  · intro fuel body i start e m s h0 hif htop hstart hseg hstop hm hse hrun hfuel
    rw [execIf_scan_stop fuel body i start e s h0 hif htop hstart hseg
        (Or.inl hstop) hse hrun hfuel]
    rw [if_pos hstop, hm]
  · intro fuel body i start c s h0 hif htop hstart hseg hstop hse hrun hfuel
    rw [execIf_scan_stop fuel body i start c s h0 hif htop hstart hseg
        (Or.inr hstop) hse hrun hfuel]
    rw [if_neg (by rw [hstop]; decide)]

/-- C4 witness on the compiled bodies IF 10 ELSE 20 THEN 30 ; (with else)
and IF 10 THEN 20 ; (without else), at a nonzero and a zero flag each:
nonzero with else stops at the else (node 2) and resumes at its target,
the close node 4; zero with else starts at the conditional-open target
(node 3), runs the false branch and stops at the close node 4; nonzero
without else stops at the close node 2; zero without else starts at the
close node 2 at once. -/
theorem claim_C4_witness :
    (execWordStage2 3 c4Body 0 (push 1 S0) =
      (some 4, runSeg c4Body 1 1 { push 1 S0 with top := (push 1 S0).top - 1 })) ∧
    (execWordStage2 3 c4Body 0 (push 0 S0) =
      (some 4, runSeg c4Body 3 1 { push 0 S0 with top := (push 0 S0).top - 1 })) ∧
    (execWordStage2 3 c4bBody 0 (push 1 S0) =
      (some 2, runSeg c4bBody 1 1 { push 1 S0 with top := (push 1 S0).top - 1 })) ∧
    (execWordStage2 3 c4bBody 0 (push 0 S0) =
      (some 2, runSeg c4bBody 2 0 { push 0 S0 with top := (push 0 S0).top - 1 })) :=
  ⟨claim_C4_amended.1 2 c4Body 0 1 2 4 (push 1 S0) (by decide) (by decide) (by decide)
      (by decide)
      (fun j h1 h2 => by
        have hj : j = 1 := by omega
        subst hj
        decide)
      (by decide) (by decide) (by decide) (by decide) (by decide),
   claim_C4_amended.2 2 c4Body 0 3 4 (push 0 S0) (by decide) (by decide) (by decide)
      (by decide)
      (fun j h1 h2 => by
        have hj : j = 3 := by omega
        subst hj
        decide)
      (by decide) (by decide) (by decide) (by decide),
   claim_C4_amended.2 2 c4bBody 0 1 2 (push 1 S0) (by decide) (by decide) (by decide)
      (by decide)
      (fun j h1 h2 => by
        have hj : j = 1 := by omega
        subst hj
        decide)
      (by decide) (by decide) (by decide) (by decide),
   claim_C4_amended.2 2 c4bBody 0 2 2 (push 0 S0) (by decide) (by decide) (by decide)
      (by decide)
      (fun j h1 h2 => absurd h2 (by omega))
      (by decide) (by decide) (by decide) (by decide)⟩

end VMKS
